import Mathlib

/-!
# Verification of the streaming message aggregator and git topology resolver

Shallow embedding of the Discord/Claude streaming aggregator
(`createClaudeSender` and its helpers) and of the git worktree resolver
(`repo-helpers.ts`, `handler.ts`).  Pure functions of the source are
translated directly; the asynchronous parts (debounced timer, promise
queue, in-flight edit tracking) are modelled as an explicit event system
over a `Sys` state that records the platform calls issued, in order.

String conventions: JavaScript strings are modelled as Lean `String`;
`s.length`/`substring` count Lean characters where JS counts UTF-16 units
(the difference is irrelevant to every claim checked here), and JS
truthiness of strings (`""` falsy) is made explicit via `jsOr`/`optTruthy`.
-/

namespace ClaudeDiscord


/-- JS `x || d` for an optional string field: the empty string is falsy. -/
def jsOr (x : Option String) (d : String) : String :=
  match x with
  | some s => if s = "" then d else s
  | none => d

/-- JS truthiness of an optional string (`undefined`/`null`/`""` are falsy). -/
def optTruthy (x : Option String) : Bool :=
  match x with
  | some s => s ≠ ""
  | none => false

/-- JS `\s` character class (ASCII part; the Unicode spaces never occur here). -/
def isJsWs (c : Char) : Bool :=
  c = ' ' || c = '\t' || c = '\n' || c = '\r' || c = '\x0b' || c = '\x0c'

/-! JS string primitives, implemented by structural recursion over the
character list (the corresponding core `String` functions recurse on byte
positions, which blocks kernel evaluation of concrete runs). -/

/-- JS `s.toLowerCase()` (ASCII). -/
def toLowerStr (s : String) : String :=
  String.mk (s.data.map Char.toLower)

/-- JS `s.trim()`. -/
def trimStr (s : String) : String :=
  String.mk (((s.data.dropWhile isJsWs).reverse.dropWhile isJsWs).reverse)

/-- JS `s.startsWith(pat)`. -/
def startsWithStr (s pat : String) : Bool :=
  pat.data.isPrefixOf s.data

/-- JS `s.endsWith(pat)`. -/
def endsWithStr (s pat : String) : Bool :=
  pat.data.isSuffixOf s.data

/-- JS `s.substring(0, n)`. -/
def takeStr (s : String) (n : Nat) : String :=
  String.mk (s.data.take n)

/-- JS `a.join(sep)` / the split inverse. -/
def strIntercalate (sep : String) : List String → String
  | [] => ""
  | [x] => x
  | x :: xs => x ++ sep ++ strIntercalate sep xs

/-- JS `s.split(sep)` for a non-empty separator, fuelled (every step consumes
at least one character, so `length + 1` fuel always suffices). -/
def splitOnAux (sep : List Char) : Nat → List Char → List Char → List (List Char)
  | 0, cs, acc => [acc.reverse ++ cs]
  | _ + 1, [], acc => [acc.reverse]
  | fuel + 1, c :: rest, acc =>
    if sep.isPrefixOf (c :: rest) then
      acc.reverse :: splitOnAux sep fuel ((c :: rest).drop sep.length) []
    else splitOnAux sep fuel rest (c :: acc)

def splitOnStr (s sep : String) : List String :=
  if sep = "" then [s]
  else (splitOnAux sep.data (s.data.length + 1) s.data []).map String.mk

/-- Substring test on character lists (JS `String.prototype.includes`). -/
def listContainsSub (pat : List Char) : List Char → Bool
  | [] => pat.isEmpty
  | c :: rest => pat.isPrefixOf (c :: rest) || listContainsSub pat rest

/-- JS `s.includes(pat)`. -/
def strContains (s pat : String) : Bool :=
  listContainsSub pat.data s.data

/-- Remainder of the list just after the first occurrence of `pat`;
`none` when `pat` does not occur. -/
def dropAfterSub (pat : List Char) : List Char → Option (List Char)
  | [] => if pat.isEmpty then some [] else none
  | c :: rest =>
    if pat.isPrefixOf (c :: rest) then some ((c :: rest).drop pat.length)
    else dropAfterSub pat rest

/-- One lazy match of `<system-reminder>[\s\S]*?</system-reminder>` anchored at
the head of `cs` (which is known to start with the opening tag): the remainder
after the first closing tag, or `none` if no closing tag follows. -/
def stripOneReminder (cs : List Char) : Option (List Char) :=
  dropAfterSub "</system-reminder>".data (cs.drop "<system-reminder>".data.length)

/-- JS `content.replace(/<system-reminder>[\s\S]*?<\/system-reminder>/g, "")`:
scan left to right, removing each (lazily matched) reminder block. -/
def stripRemindersAux : Nat → List Char → List Char
  | 0, cs => cs
  | _ + 1, [] => []
  | fuel + 1, c :: rest =>
    if "<system-reminder>".data.isPrefixOf (c :: rest) then
      match stripOneReminder (c :: rest) with
      | some rest' => stripRemindersAux fuel rest'
      | none => c :: stripRemindersAux fuel rest
    else c :: stripRemindersAux fuel rest

def stripSystemReminders (s : String) : String :=
  String.mk (stripRemindersAux s.data.length s.data)

/-- Index (in `run`) one past the last `'\n'` of `run`. -/
def lastNewlineEnd (run : List Char) : Nat :=
  run.length - (run.reverse.takeWhile (fun d => d ≠ '\n')).length

/-- JS `content.replace(/\n\s*\n\s*\n/g, "\n\n")` (global, greedy `\s*` with
backtracking): at a `'\n'` whose following maximal whitespace run contains at
least two more newlines, the match extends to the last newline of that run and
is replaced by a blank line; scanning resumes after the match. -/
def collapseAux : Nat → List Char → List Char
  | 0, cs => cs
  | _ + 1, [] => []
  | fuel + 1, c :: rest =>
    if c = '\n' then
      let run := rest.takeWhile isJsWs
      if 2 ≤ (run.filter (fun d => d = '\n')).length then
        '\n' :: '\n' :: collapseAux fuel (rest.drop (lastNewlineEnd run))
      else c :: collapseAux fuel rest
    else c :: collapseAux fuel rest

def collapseNewlineRuns (s : String) : String :=
  String.mk (collapseAux s.data.length s.data)

/-! ## Data model: Claude messages (`types.ts`)

`metadata.input` is a free-form JSON object in the source; only the fields the
classifier reads are modelled, plus `serialized`, which stands for
`JSON.stringify` of the raw object (used only by the generic tool preview). -/

structure ToolInput where
  todos : List Unit := []
  file_path : Option String := none
  command : Option String := none
  pattern : Option String := none
  glob : Option String := none
  description : Option String := none
  serialized : String := "\x7b\x7d"
  deriving Repr, DecidableEq

structure MsgMetadata where
  subtype : Option String := none
  name : Option String := none
  input : Option ToolInput := none
  cwd : Option String := none
  session_id : Option String := none
  model : Option String := none
  signal : Option String := none
  categoryName : Option String := none
  repoName : Option String := none
  branchName : Option String := none
  deriving Repr, DecidableEq

structure ClaudeMessage where
  type : String
  content : String := ""
  metadata : Option MsgMetadata := none
  deriving Repr, DecidableEq

def ClaudeMessage.subtype (m : ClaudeMessage) : Option String :=
  m.metadata.bind (·.subtype)

/-! ## Skip filter (`getSkipMessageTypes`, `shouldSkipMessage`) -/

/-- Parse the `CLAUDE_SKIP_MESSAGE_TYPES` environment value (`none` when the
variable is unset; the empty string is falsy and also yields the empty set). -/
def getSkipMessageTypes (env : Option String) : List String :=
  match env with
  | none => []
  | some s =>
    if s = "" then []
    else ((splitOnStr s ",").map (fun t => toLowerStr (trimStr t))).filter (fun t => t ≠ "")

def shouldSkipMessage (msg : ClaudeMessage) (skipMessageTypes : List String) : Bool :=
  let msgType := toLowerStr msg.type
  if skipMessageTypes.contains msgType then true
  else
    match msg.metadata.bind (·.subtype) with
    | some st =>
      if st ≠ "" then
        skipMessageTypes.contains (msgType ++ ":" ++ toLowerStr st)
      else false
    | none => false

/-! ## Event classifier (`messageToSummaryLine`) -/

def messageToSummaryLine (msg : ClaudeMessage) : Option String :=
  if msg.type = "text" then
    let text := trimStr msg.content
    if text = "" then none
    else
      let preview := if text.length > 1000 then takeStr text 1000 ++ "..." else text
      some ("\\> " ++ preview)
  else if msg.type = "tool_use" then
    let toolName := jsOr (msg.metadata.bind (·.name)) "Unknown"
    let input := msg.metadata.bind (·.input)
    if toolName = "TodoWrite" then
      let todos := (input.map (·.todos)).getD []
      some ("**Todo** — " ++ toString todos.length ++ " item(s)")
    else if toolName = "Edit" then
      let filePath := jsOr (input.bind (·.file_path)) "unknown"
      some ("**Edit** — `" ++ filePath ++ "`")
    else if toolName = "Write" then
      let filePath := jsOr (input.bind (·.file_path)) "unknown"
      some ("**Write** — `" ++ filePath ++ "`")
    else if toolName = "Read" then
      let filePath := jsOr (input.bind (·.file_path)) "unknown"
      some ("**Read** — `" ++ filePath ++ "`")
    else if toolName = "Bash" then
      let cmd := jsOr (input.bind (·.command)) ""
      let preview := if cmd.length > 80 then takeStr cmd 80 ++ "..." else cmd
      some ("**Bash** — `" ++ preview ++ "`")
    else if toolName = "Glob" || toolName = "Grep" then
      let pattern := jsOr (input.bind (·.pattern)) (jsOr (input.bind (·.glob)) "")
      some ("**" ++ toolName ++ "** — `" ++ pattern ++ "`")
    else if toolName = "Task" then
      let desc := jsOr (input.bind (·.description)) ""
      some ("**Task** — " ++ desc)
    else
      let inputStr := (input.map (·.serialized)).getD "\x7b\x7d"
      let preview := if inputStr.length > 80 then takeStr inputStr 80 ++ "..." else inputStr
      some ("**" ++ toolName ++ "** — `" ++ preview ++ "`")
  else if msg.type = "tool_result" then
    let content := trimStr (collapseNewlineRuns (stripSystemReminders msg.content))
    if content = "" then none
    else
      let lines := splitOnStr content "\n"
      let lineCount := lines.length
      if lineCount ≤ 1 && content.length ≤ 100 then
        some ("Result — " ++ content)
      else some ("Result — " ++ toString lineCount ++ " line(s)")
  else if msg.type = "thinking" then
    let text := trimStr msg.content
    if text = "" then some "Thinking..."
    else
      let preview := if text.length > 150 then takeStr text 150 ++ "..." else text
      some ("*Thinking: " ++ preview ++ "*")
  else if msg.type = "other" then some "Other output received"
  else none

/-! ## Progress state and trimming -/

def MAX_DESCRIPTION_LENGTH : Nat := 3800

def EDIT_DEBOUNCE_MS : Nat := 1500

structure ProgressState where
  messageId : Option String := none
  lines : List String := []
  trimmedCount : Nat := 0
  prompt : String := ""
  /-- `editTimer`: the handle of the pending `setTimeout`, `none` when cleared. -/
  editTimer : Option Nat := none
  pendingEdit : Bool := false
  finished : Bool := false
  fullTextMessages : List String := []
  deriving Repr, DecidableEq

def buildProgressDescription (state : ProgressState) : String :=
  (if state.trimmedCount > 0 then
    "*[... " ++ toString state.trimmedCount ++ " earlier entries trimmed]*\n"
  else "") ++ strIntercalate "\n\n" state.lines

/-- The `while` loop of `trimLines`, fuelled by the number of lines (each
iteration removes one line, so `lines.length` iterations always reach the
loop's exit condition). -/
def trimLinesGo : Nat → ProgressState → ProgressState
  | 0, s => s
  | fuel + 1, s =>
    if s.lines.length > 1 && (buildProgressDescription s).length > MAX_DESCRIPTION_LENGTH then
      trimLinesGo fuel { s with lines := s.lines.drop 1, trimmedCount := s.trimmedCount + 1 }
    else s

def trimLines (s : ProgressState) : ProgressState :=
  trimLinesGo s.lines.length s

/-- `resetProgress(prompt?, messageId?)`: cancels the pending timer and wholly
replaces the progress state (`messageId || null`, `prompt || ""`). -/
def resetProgress (prompt : Option String) (messageId : Option String) : ProgressState :=
  { messageId := if optTruthy messageId then messageId else none
  , lines := []
  , trimmedCount := 0
  , prompt := jsOr prompt ""
  , editTimer := none
  , pendingEdit := false
  , finished := false
  , fullTextMessages := [] }

/-! ## Discord message content (`discord/types.ts`, as used by the sender) -/

structure EmbedField where
  name : String
  value : String
  inline : Bool := false
  deriving Repr, DecidableEq

structure EmbedData where
  color : Nat
  title : String
  description : Option String := none
  timestamp : Bool := false
  fields : List EmbedField := []
  deriving Repr, DecidableEq

structure ComponentData where
  customId : String
  label : String
  style : String
  deriving Repr, DecidableEq

structure FileData where
  /-- The attached bytes; `TextEncoder.encode` is modelled as the text itself. -/
  path : String
  name : String
  description : String
  deriving Repr, DecidableEq

structure MessageContent where
  embeds : List EmbedData := []
  /-- Action rows; each row is its list of buttons. -/
  components : List (List ComponentData) := []
  files : List FileData := []
  deriving Repr, DecidableEq

def createActionButtons (sessionId : Option String) : List ComponentData :=
  (if optTruthy sessionId then
    [ { customId := "continue:" ++ sessionId.getD "", label := "Continue", style := "primary" }
    , { customId := "copy-session:" ++ sessionId.getD "", label := "Session ID", style := "secondary" }
    , { customId := "jump-previous", label := "Jump to Previous", style := "secondary" } ]
  else []) ++
  [ { customId := "cancel-claude", label := "Cancel", style := "danger" } ]

def createWorkflowButtons : List ComponentData :=
  [ { customId := "workflow:git-status", label := "Git Status", style := "secondary" } ]

/-! ## Effect model

Platform calls are recorded in a trace.  Calls the aggregator `await`s are
atomic (`callStart` immediately followed by `callEnd`); the one call started
without being awaited — the edit triggered by the debounce timer — stays
pending in `Sys.inflight` (the `inflightEdit` handle of the source) until it
settles.  The platform client (discord.js REST) serializes requests per route,
so before a new call is issued any still-pending edit settles first
(`completeInflight`). -/

inductive PlatformCall
  | send (content : MessageContent)
  | edit (messageId : String) (content : MessageContent)
  deriving Repr, DecidableEq

inductive TraceEv
  | callStart (c : PlatformCall)
  | callEnd (c : PlatformCall)
  | batchStart (i : Nat)
  | batchEnd (i : Nat)
  deriving Repr, DecidableEq

/-- Oracle for the injected `DiscordSender`: how the n-th platform call
settles.  `.error ()` models a thrown rejection. -/
structure SenderBehavior where
  sendResult : Nat → Except Unit (Option String)
  editOk : Nat → Bool

structure Sys where
  prog : ProgressState := {}
  /-- The call tracked by the `inflightEdit` handle, when still unsettled. -/
  inflight : Option PlatformCall := none
  nextTimer : Nat := 0
  callIdx : Nat := 0
  trace : List TraceEv := []
  deriving Repr, DecidableEq

/-- A pending in-flight edit settles (its `callEnd` is recorded). -/
def completeInflight (s : Sys) : Sys :=
  match s.inflight with
  | some c => { s with inflight := none, trace := s.trace ++ [TraceEv.callEnd c] }
  | none => s

def doSend (b : SenderBehavior) (content : MessageContent) (s : Sys) :
    Except Unit (Option String) × Sys :=
  let s := completeInflight s
  let c := PlatformCall.send content
  (b.sendResult s.callIdx,
   { s with callIdx := s.callIdx + 1
          , trace := s.trace ++ [TraceEv.callStart c, TraceEv.callEnd c] })

def doEdit (b : SenderBehavior) (messageId : String) (content : MessageContent) (s : Sys) :
    Except Unit Unit × Sys :=
  let s := completeInflight s
  let c := PlatformCall.edit messageId content
  ((if b.editOk s.callIdx then Except.ok () else Except.error ()),
   { s with callIdx := s.callIdx + 1
          , trace := s.trace ++ [TraceEv.callStart c, TraceEv.callEnd c] })

/-- The progress embed, as built identically by the initial `sendMessage`
(lines 336–341) and by `flushEdit` (lines 263–268). -/
def runningContent (p : ProgressState) : MessageContent :=
  { embeds := [{ color := 0xffff00
               , title := "Claude Code Running..."
               , description := some (buildProgressDescription p)
               , timestamp := true }] }

/-- `flushEdit`: no-op without a live message or after finishing; an edit
failure is caught and only logged. -/
def flushEdit (b : SenderBehavior) (s : Sys) : Sys :=
  if optTruthy s.prog.messageId = false || s.prog.finished then s
  else (doEdit b (s.prog.messageId.getD "") (runningContent s.prog) s).2

/-- `scheduleEdit`: set the pending flag, replace any previously scheduled
timer with a fresh handle. -/
def scheduleEdit (s : Sys) : Sys :=
  { s with prog := { s.prog with pendingEdit := true, editTimer := some s.nextTimer }
         , nextTimer := s.nextTimer + 1 }

/-- Completion/failure system messages control the embed state and are never
skippable. -/
def isInternalSystem (m : ClaudeMessage) : Bool :=
  m.type = "system" && (m.subtype = some "completion" || m.subtype = some "failure")

/-- The drop decision at the head of the `processMessages` loop. -/
def droppedBySkipFilter (skipMessageTypes : List String) (m : ClaudeMessage) : Bool :=
  !isInternalSystem m && shouldSkipMessage m skipMessageTypes

/-- The message content built by `sendSystemMessage` (lines 357–468).  The
source interleaves this construction with the state mutations of the terminal
path; the content produced is the same. -/
def buildSystemMessageContent (p : ProgressState) (msg : ClaudeMessage) : MessageContent :=
  let md := msg.metadata
  let isCompletion := msg.subtype = some "completion"
  let isFailure := msg.subtype = some "failure"
  let embed0 : EmbedData :=
    { color := if isCompletion then 0x00ff00 else if isFailure then 0xff0000 else 0xaaaaaa
    , title :=
        if isCompletion then "Claude Code Complete"
        else if isFailure then "Claude Code Failed"
        else "System: " ++ jsOr msg.subtype "info"
    , timestamp := true
    , fields := [] }
  let embed1 :=
    if (isCompletion || isFailure) && p.lines.length > 0 then
      { embed0 with description := some (buildProgressDescription p) }
    else embed0
  let fields :=
    (if optTruthy (md.bind (·.cwd)) then
      [{ name := "Working Directory", value := "`" ++ (md.bind (·.cwd)).getD "" ++ "`"
       , inline := false }]
     else []) ++
    (if optTruthy (md.bind (·.session_id)) then
      [{ name := "Session ID", value := "`" ++ (md.bind (·.session_id)).getD "" ++ "`"
       , inline := false }]
     else []) ++
    (if optTruthy (md.bind (·.model)) then
      [{ name := "Model", value := (md.bind (·.model)).getD "", inline := true }]
     else [])
  -- The source also appends Cost and Duration fields formatted from floating
  -- point metadata (`toFixed`); floating point is not modelled, and no claim
  -- depends on those two fields.
  let embed2 := { embed1 with fields := fields }
  let embed3 :=
    if msg.subtype = some "shutdown" then
      { embed2 with
        color := 0xff0000
      , title := "Shutdown"
      , description := some ("Bot stopped by signal " ++ (md.bind (·.signal)).getD "undefined")
      , fields :=
          [ { name := "Category", value := (md.bind (·.categoryName)).getD "", inline := true }
          , { name := "Repository", value := (md.bind (·.repoName)).getD "", inline := true }
          , { name := "Branch", value := (md.bind (·.branchName)).getD "", inline := true } ] }
    else embed2
  let embed4 :=
    if isFailure && msg.content ≠ "" then
      let errorPreview :=
        if msg.content.length > 200 then takeStr msg.content 200 ++ "..." else msg.content
      { embed3 with
        fields := embed3.fields ++ [{ name := "Error", value := errorPreview, inline := false }] }
    else embed3
  let components :=
    if isCompletion && optTruthy (md.bind (·.session_id)) then
      [createActionButtons (md.bind (·.session_id)), createWorkflowButtons]
    else []
  let totalTextLength := (p.fullTextMessages.map String.length).sum
  let files :=
    if (isCompletion || isFailure) && totalTextLength > 2000 then
      [{ path := strIntercalate "\n\n---\n\n" p.fullTextMessages
       , name := "response.md"
       , description := "Full Claude response" }]
    else []
  { embeds := [embed4], components := components, files := files }

/-- Lines 470–476: `try { editMessage } catch { sendMessage }` — the fallback
send's own rejection propagates. -/
def editWithSendFallback (b : SenderBehavior) (mid : String) (content : MessageContent)
    (s : Sys) : Except Unit Unit × Sys :=
  let r := doEdit b mid content s
  match r.1 with
  | Except.ok _ => (Except.ok (), r.2)
  | Except.error _ =>
    let r2 := doSend b content r.2
    (r2.1.map (fun _ => ()), r2.2)

/-- `sendSystemMessage`: for completion/failure cancel the pending debounced
edit, mark the run finished, wait for any in-flight edit to settle, then edit
the live progress message in place (falling back to a fresh send if the edit
rejects); any other system message is sent as a new message. -/
def sendSystemMessage (b : SenderBehavior) (msg : ClaudeMessage) (s : Sys) :
    Except Unit Unit × Sys :=
  let isCompletion := msg.subtype = some "completion"
  let isFailure := msg.subtype = some "failure"
  let messageContent := buildSystemMessageContent s.prog msg
  let s :=
    if isCompletion || isFailure then
      completeInflight
        { s with prog := { s.prog with editTimer := none, pendingEdit := false, finished := true } }
    else s
  if (isCompletion || isFailure) && optTruthy s.prog.messageId then
    editWithSendFallback b (s.prog.messageId.getD "") messageContent s
  else
    let r := doSend b messageContent s
    (r.1.map (fun _ => ()), r.2)

/-- Lines 333–343: create the initial progress message and record the returned
id (`state.messageId = msgId || null`); a rejected send propagates. -/
def sendInitialProgressMessage (b : SenderBehavior) (s : Sys) : Except Unit Unit × Sys :=
  let r := doSend b (runningContent s.prog) s
  match r.1 with
  | Except.ok msgId =>
    (Except.ok (),
     { r.2 with prog :=
       { r.2.prog with messageId := if optTruthy msgId then msgId else none } })
  | Except.error e => (Except.error e, r.2)

/-- Lines 306–318: a system message cancels the pending timer, flushes any
pending progress edit, and is handled by `sendSystemMessage`. -/
def handleSystem (b : SenderBehavior) (msg : ClaudeMessage) (s : Sys) :
    Except Unit Unit × Sys :=
  let s := { s with prog := { s.prog with editTimer := none } }
  let s := if s.prog.pendingEdit || optTruthy s.prog.messageId then flushEdit b s else s
  sendSystemMessage b msg s

/-- Lines 320–323: every non-empty text body is appended to the accumulation
side-channel. -/
def accumulateText (msg : ClaudeMessage) (s : Sys) : Sys :=
  if msg.type = "text" && trimStr msg.content ≠ "" then
    { s with prog :=
      { s.prog with fullTextMessages := s.prog.fullTextMessages ++ [trimStr msg.content] } }
  else s

/-- Lines 329–347: append the classified line, trim, then either create the
initial progress message or schedule a debounced edit. -/
def classifyAppend (b : SenderBehavior) (summaryLine : String) (s : Sys) :
    Except Unit Unit × Sys :=
  let s := { s with prog := trimLines { s.prog with lines := s.prog.lines ++ [summaryLine] } }
  if optTruthy s.prog.messageId = false then
    sendInitialProgressMessage b s
  else (Except.ok (), scheduleEdit s)

/-- One iteration of the `processMessages` loop. -/
def processOne (b : SenderBehavior) (skipMessageTypes : List String) (msg : ClaudeMessage)
    (s : Sys) : Except Unit Unit × Sys :=
  if droppedBySkipFilter skipMessageTypes msg then (Except.ok (), s)
  else if msg.type = "system" then handleSystem b msg s
  else
    let s := accumulateText msg s
    match messageToSummaryLine msg with
    | none => (Except.ok (), s)
    | some summaryLine => classifyAppend b summaryLine s

/-- The `for` loop of `processMessages`; a thrown error aborts the rest of the
batch and propagates. -/
def processMessages (b : SenderBehavior) (skipMessageTypes : List String) :
    List ClaudeMessage → Sys → Except Unit Unit × Sys
  | [], s => (Except.ok (), s)
  | msg :: rest, s =>
    let r := processOne b skipMessageTypes msg s
    match r.1 with
    | Except.ok _ => processMessages b skipMessageTypes rest r.2
    | Except.error e => (Except.error e, r.2)

/-- JS `.catch(() => {})` at the queue boundary. -/
def jsCatch (r : Except Unit Unit) : Except Unit Unit :=
  match r with
  | Except.ok v => Except.ok v
  | Except.error _ => Except.ok ()

/-- The `messageQueue` promise chain of `sendClaudeMessages`: every submitted
batch is chained with `.then`, so batches run strictly one after the other in
submission order even when submitted before earlier promises settle; each
link's failure is caught at the queue boundary.  Returns the final state and,
per batch, the settlement the caller of `sendClaudeMessages` observes. -/
def queueRunFrom (b : SenderBehavior) (skipMessageTypes : List String) :
    Nat → List (List ClaudeMessage) → Sys → Sys × List (Except Unit Unit)
  | _, [], s => (s, [])
  | i, batch :: rest, s =>
    let s1 := { s with trace := s.trace ++ [TraceEv.batchStart i] }
    let pr := processMessages b skipMessageTypes batch s1
    let s3 := { pr.2 with trace := pr.2.trace ++ [TraceEv.batchEnd i] }
    let qr := queueRunFrom b skipMessageTypes (i + 1) rest s3
    (qr.1, jsCatch pr.1 :: qr.2)

def sendClaudeMessagesQueued (b : SenderBehavior) (skipMessageTypes : List String)
    (batches : List (List ClaudeMessage)) (s : Sys) : Sys × List (Except Unit Unit) :=
  queueRunFrom b skipMessageTypes 0 batches s

/-! ## The concurrency outside the serializer: the debounce timer -/

inductive LoopEvent
  | timerFires (id : Nat)
  | inflightSettles
  deriving Repr, DecidableEq

/-- Effect of an event-loop event: a pending timer fires (running the
`setTimeout` callback, which starts `inflightEdit = flushEdit()` without
awaiting it), or the in-flight edit settles.  A cleared timer handle never
fires. -/
def stepEvent (s : Sys) : LoopEvent → Sys
  | LoopEvent.timerFires id =>
    if s.prog.editTimer = some id then
      let s := { s with prog := { s.prog with editTimer := none, pendingEdit := false } }
      if optTruthy s.prog.messageId = false || s.prog.finished then
        { s with inflight := none }
      else
        let s := completeInflight s
        let c := PlatformCall.edit (s.prog.messageId.getD "") (runningContent s.prog)
        { s with inflight := some c, trace := s.trace ++ [TraceEv.callStart c] }
    else s
  | LoopEvent.inflightSettles => completeInflight s

def applyEvents : List LoopEvent → Sys → Sys
  | [], s => s
  | ev :: rest, s => applyEvents rest (stepEvent s ev)

/-- The state `createClaudeSender` starts from. -/
def sys0 : Sys := {}

/-! ## Git topology resolver (`git/repo-helpers.ts`, `git/handler.ts`)

The resolver shells out to `git` and reads the filesystem; those effects are
supplied by an environment `FsGitEnv` (what each read/stat/git query returns)
and, for the commands that mutate the repository, an oracle `GitTool`. -/

structure FsGitEnv where
  /-- `Deno.readTextFile` (`none` = the read throws). -/
  readFile : String → Option String
  /-- `Deno.stat` succeeds on the path. -/
  statOk : String → Bool
  /-- stdout of `git rev-parse --git-dir` run in the given cwd
  (`none` = the command failed or exited non-zero). -/
  revParseGitDir : String → Option String
  /-- stdout of `git rev-parse --is-bare-repository` (`none` = failure). -/
  revParseIsBare : String → Option String
  /-- stdout of `git worktree list` run in the given cwd (`none` = failure). -/
  worktreeList : String → Option String
  /-- The `GIT_BARE_REPO` override: `Deno.env.get("GIT_BARE_REPO")?.toLowerCase() === "true"`. -/
  envBareOverride : Bool

/-- `node:path` `resolve(base, rel)`; `.`/`..` normalization is elided (the
git-dir strings resolved here are absolute in every layout exercised). -/
def nodeResolve (base rel : String) : String :=
  if startsWithStr rel "/" then rel else base ++ "/" ++ rel

/-- `node:path` `dirname`. -/
def dirname (p : String) : String :=
  let segs := splitOnStr p "/"
  if segs.length ≤ 1 then "." else strIntercalate "/" segs.dropLast

/-- JS `s.split(pat)[0]`: the portion before the first occurrence of `pat`. -/
def takeUntilSubAux (pat : List Char) : List Char → List Char
  | [] => []
  | c :: rest => if pat.isPrefixOf (c :: rest) then [] else c :: takeUntilSubAux pat rest

def strSplitFirst (s pat : String) : String :=
  String.mk (takeUntilSubAux pat.data s.data)

/-- `workDir.replace(/\/\.git\/worktrees\/[^\/]+$/, "")`. -/
def stripGitWorktreesSuffix (workDir : String) : String :=
  match (splitOnStr workDir "/").reverse with
  | last :: "worktrees" :: ".git" :: restRev =>
    if last ≠ "" then strIntercalate "/" restRev.reverse else workDir
  | _ => workDir

/-- The capture of `/gitdir:\s*(.+)/`: text after the first `gitdir:`, with
leading whitespace skipped, up to the end of that line (`none` when the match
fails; greedy-backtracking corner cases on all-whitespace tails are elided —
no worktree-link file exercises them). -/
def gitdirCapture (gitFile : String) : Option String :=
  match dropAfterSub "gitdir:".data gitFile.data with
  | none => none
  | some rest =>
    let afterWs := rest.dropWhile (fun c => isJsWs c)
    let captured := afterWs.takeWhile (fun c => c ≠ '\n')
    if captured.isEmpty then none else some (String.mk captured)

/-- Method 2 of `resolveBaseRepoDir`: `git rev-parse --git-dir`. -/
def resolveViaRevParse (env : FsGitEnv) (workDir : String) : String :=
  match env.revParseGitDir workDir with
  | some out =>
    let gitDir := nodeResolve workDir (trimStr out)
    if strContains gitDir "/worktrees/" then strSplitFirst gitDir "/worktrees/"
    else if endsWithStr gitDir "/.git" || endsWithStr gitDir "\\.git" then workDir
    else gitDir
  | none => workDir

/-- `resolveBaseRepoDir` (repo-helpers.ts lines 12–64). -/
def resolveBaseRepoDir (env : FsGitEnv) (workDir : String) : String :=
  match env.readFile (workDir ++ "/.git") with
  | some gitFile =>
    if strContains gitFile "gitdir:" then
      match gitdirCapture gitFile with
      | some cap =>
        let gitDir := nodeResolve workDir (trimStr cap)
        if strContains gitDir "/worktrees/" then strSplitFirst gitDir "/worktrees/" else workDir
      | none => stripGitWorktreesSuffix workDir
    else resolveViaRevParse env workDir
  | none => resolveViaRevParse env workDir

/-- `isBareRepository` (repo-helpers.ts lines 70–95). -/
def isBareRepository (env : FsGitEnv) (repoDir : String) : Bool :=
  if env.envBareOverride then true
  else
    match env.revParseIsBare repoDir with
    | some out => toLowerStr (trimStr out) = "true"
    | none => false

/-- `parts[0]` of `line.trim().split(/\s+/)`. -/
def firstWsToken (s : String) : String :=
  String.mk ((trimStr s).data.takeWhile (fun c => !isJsWs c))

/-- The parsing step of `getWorktreeList` (repo-helpers.ts lines 166–171). -/
def parseWorktreeList (output : String) : List String :=
  (((splitOnStr output "\n").filter (fun l => trimStr l ≠ "")).map firstWsToken).filter
    (fun p => p ≠ "")

def getWorktreeList (env : FsGitEnv) (baseRepoDir : String) : List String :=
  match env.worktreeList baseRepoDir with
  | some output => parseWorktreeList output
  | none => []

/-- The scanning loop of `findWorktreeForBranch` (lines 210–218): first line
whose branch annotation `[branch]` occurs or that ends in ` branch`. -/
def findBranchLine : List String → String → Option String
  | [], _ => none
  | line :: rest, branch =>
    if strContains line ("[" ++ branch ++ "]") || endsWithStr line (" " ++ branch) then
      some (firstWsToken line)
    else findBranchLine rest branch

/-- `findWorktreeForBranch` (repo-helpers.ts lines 184–222); a failed or empty
listing yields `none`. -/
def findWorktreeForBranch (env : FsGitEnv) (baseRepoDir branch : String) : Option String :=
  let worktreeListOutput := (env.worktreeList baseRepoDir).getD ""
  if worktreeListOutput ≠ "" then
    findBranchLine ((splitOnStr worktreeListOutput "\n").filter (fun l => trimStr l ≠ "")) branch
  else none

/-- The candidate filter of `findWorktreeForBareRepo`: listed path under the
bare repo directory (prefix plus separator), existing on disk, carrying a
worktree-link `.git` file with a `gitdir:` marker. -/
def isValidBareWorktreeCandidate (env : FsGitEnv) (bareRepoDir p : String) : Bool :=
  (startsWithStr p (bareRepoDir ++ "/") || startsWithStr p (bareRepoDir ++ "\\")) &&
  env.statOk p &&
  (match env.readFile (p ++ "/.git") with
   | some gitFile => strContains gitFile "gitdir:"
   | none => false)

def bareWorktreeCandidates (env : FsGitEnv) (bareRepoDir : String) : List String :=
  (getWorktreeList env bareRepoDir).filter (isValidBareWorktreeCandidate env bareRepoDir)

def prefersMainOrMaster (wt : String) : Bool :=
  endsWithStr wt "/main" || endsWithStr wt "\\main" || endsWithStr wt "/master" || endsWithStr wt "\\master"

/-- `findWorktreeForBareRepo` (repo-helpers.ts lines 229–266). -/
def findWorktreeForBareRepo (env : FsGitEnv) (bareRepoDir : String) : Option String :=
  match bareWorktreeCandidates env bareRepoDir with
  | [] => none
  | c :: cs =>
    match (c :: cs).find? prefersMainOrMaster with
    | some p => some p
    | none => some c

structure WorktreeResult where
  result : String
  fullPath : String
  baseDir : String
  isExisting : Bool := false
  deriving Repr, DecidableEq

structure GitTool where
  /-- `executeGitCommand(cwd, command)` (handler.ts lines 47–114): wraps the
  external `git` process; its textual result and environment effect are
  determined by the outside world, so they are supplied as an oracle. -/
  exec : FsGitEnv → String → String → String × FsGitEnv
  /-- `Deno.mkdir(path, { recursive: true })`. -/
  mkdirp : FsGitEnv → String → FsGitEnv

/-- `createWorktree` (handler.ts lines 116–174). -/
def createWorktree (tool : GitTool) (env : FsGitEnv) (workDir branch : String)
    (ref : Option String) : WorktreeResult × FsGitEnv :=
  let baseWorkDir := resolveBaseRepoDir env workDir
  match findWorktreeForBranch env baseWorkDir branch with
  | some existingWorktree =>
    ({ result := "Found existing worktree. Path: " ++ existingWorktree
     , fullPath := existingWorktree, baseDir := baseWorkDir, isExisting := true }, env)
  | none =>
    let isBare := isBareRepository env baseWorkDir
    let worktreeDir :=
      if isBare then baseWorkDir ++ "/" ++ branch else baseWorkDir ++ "/../" ++ branch
    if env.statOk worktreeDir then
      ({ result := "Error: Directory '" ++ worktreeDir ++ "' already exists."
       , fullPath := worktreeDir, baseDir := baseWorkDir }, env)
    else
      let checked :=
        tool.exec env baseWorkDir ("git show-ref --verify --quiet refs/heads/" ++ branch)
      let branchCheckResult := checked.1
      let isCheckError := startsWithStr branchCheckResult "Execution error:" ||
        startsWithStr branchCheckResult "Error:" || strContains branchCheckResult "Command failed"
      let branchExists := !isCheckError
      let env2 := tool.mkdirp checked.2 (dirname worktreeDir)
      let ran :=
        if branchExists then
          tool.exec env2 baseWorkDir ("git worktree add " ++ worktreeDir ++ " " ++ branch)
        else
          tool.exec env2 baseWorkDir
            ("git worktree add " ++ worktreeDir ++ " -b " ++ branch ++ " " ++ jsOr ref "HEAD")
      ({ result := ran.1, fullPath := worktreeDir, baseDir := baseWorkDir }, ran.2)

/-! ## Lemmas: trimming -/

/-- The budget invariant `trimLines` establishes: within budget, or down to a
single (possibly over-long) line. -/
def lenOk (p : ProgressState) : Prop :=
  p.lines.length ≤ 1 ∨ (buildProgressDescription p).length ≤ MAX_DESCRIPTION_LENGTH

/-- The summary lines a batch contributes to the progress display: those of
its messages that survive the skip filter and classify to a line. -/
def contribLines (skip : List String) (msgs : List ClaudeMessage) : List String :=
  msgs.filterMap (fun m =>
    if droppedBySkipFilter skip m then none else messageToSummaryLine m)

/-- The trimmed text bodies a batch appends to `fullTextMessages`
(independent of the classifier). -/
def contribTexts (skip : List String) (msgs : List ClaudeMessage) : List String :=
  msgs.filterMap (fun m =>
    if droppedBySkipFilter skip m then none
    else if m.type = "text" && trimStr m.content ≠ "" then some (trimStr m.content)
    else none)

/-- A sender whose calls always succeed, returning the id `msg-1` on sends. -/
def bOk : SenderBehavior :=
  { sendResult := fun _ => Except.ok (some "msg-1"), editOk := fun _ => true }

/-- The `type` and `type:subtype` tags a message carries (lower-cased; a
message with an empty subtype carries no `type:subtype` tag because the
source's truthiness check skips it). -/
def messageTags (m : ClaudeMessage) : List String :=
  toLowerStr m.type ::
    (match m.metadata.bind (·.subtype) with
     | some st => if st ≠ "" then [toLowerStr m.type ++ ":" ++ toLowerStr st] else []
     | none => [])

/-! ## Lemmas: traces -/

/-- The trace events a call issuance appends for a still-pending in-flight
edit (its settlement). -/
def inflightEndEvents (s : Sys) : List TraceEv :=
  match s.inflight with
  | some c => [TraceEv.callEnd c]
  | none => []

/-! ## Claims about the git resolver -/

/-- Modelled from the spec: a path that is a *direct* descendant (immediate
child) of `dir`, the candidate restriction the spec states for
`findWorktreeForBareRepo`; the remainder after `dir` plus one separator must
contain no further separator. -/
def isDirectDescendant (dir p : String) : Bool :=
  (startsWithStr p (dir ++ "/") || startsWithStr p (dir ++ "\\")) &&
  !(strContains (String.mk (p.data.drop (dir.length + 1))) "/") &&
  !(strContains (String.mk (p.data.drop (dir.length + 1))) "\\")

/-- An environment whose bare repo `/repo` lists a worktree nested two levels
deep (as `createWorktree` produces for a branch name containing a slash). -/
def nestedWtEnv : FsGitEnv :=
  { readFile := fun p =>
      if p = "/repo/a/b/.git" then some "gitdir: /repo/.git/worktrees/b" else none
  , statOk := fun p => p = "/repo/a/b"
  , revParseGitDir := fun _ => none
  , revParseIsBare := fun _ => none
  , worktreeList := fun d =>
      if d = "/repo" then some "/repo/a/b  abc123 [a/b]" else none
  , envBareOverride := false }

/-- An environment whose bare repo `/repo` has two valid worktrees, one of
them named `main`. -/
def mainWtEnv : FsGitEnv :=
  { readFile := fun p =>
      if p = "/repo/x/.git" || p = "/repo/main/.git" then
        some "gitdir: /repo/.git/worktrees/w"
      else none
  , statOk := fun p => p = "/repo/x" || p = "/repo/main"
  , revParseGitDir := fun _ => none
  , revParseIsBare := fun _ => none
  , worktreeList := fun d =>
      if d = "/repo" then some "/repo/x  1111 [x]\n/repo/main  2222 [main]" else none
  , envBareOverride := false }

/-- A bare repository at `/repo` with no worktree for `feat` yet; the tool
oracle reports the branch ref as missing and, on `git worktree add`, registers
the new worktree in the listing. -/
def freshEnv : FsGitEnv :=
  { readFile := fun _ => none
  , statOk := fun _ => false
  , revParseGitDir := fun _ => none
  , revParseIsBare := fun d => if d = "/repo" then some "true" else none
  , worktreeList := fun d => if d = "/repo" then some "/repo  (bare)" else none
  , envBareOverride := false }

def registeringTool : GitTool :=
  { exec := fun env _ cmd =>
      if strContains cmd "show-ref" then ("Command failed with exit code 1", env)
      else ("Preparing worktree",
        { env with worktreeList := fun d =>
            if d = "/repo" then some "/repo  (bare)\n/repo/feat  abcd [feat]"
            else env.worktreeList d })
  , mkdirp := fun env _ => env }

/-- A run with more than 2000 characters of accumulated assistant text. -/
def bigTextSys : Sys :=
  { prog := { fullTextMessages :=
      [String.mk (List.replicate 1001 'a'), String.mk (List.replicate 1001 'b')] } }

/-! ## Batch contributions and success lemmas -/

/-- The platform never rejects a `sendMessage` call. -/
def SendsOk (b : SenderBehavior) : Prop :=
  ∀ n, ∃ v, b.sendResult n = Except.ok v

/-! ## Trace extension: every effect only appends call events -/

def isCallEv : TraceEv → Bool
  | TraceEv.callStart _ => true
  | TraceEv.callEnd _ => true
  | _ => false

/-- `s'` extends `s`'s trace purely with call events (no batch markers). -/
def TraceExt (s s' : Sys) : Prop :=
  ∃ Δ, s'.trace = s.trace ++ Δ ∧ ∀ ev ∈ Δ, isCallEv ev = true

/-! ## The promise-chain serializer -/

/-- The trace shape of a serialized queue run: each batch's call events lie
strictly between its own `batchStart`/`batchEnd` markers, batches in
submission order. -/
def batchSegTrace : Nat → List (List TraceEv) → List TraceEv
  | _, [] => []
  | i, seg :: rest =>
    [TraceEv.batchStart i] ++ seg ++ [TraceEv.batchEnd i] ++ batchSegTrace (i + 1) rest

/-! ## Claims C4, C7, C10: the serializer contract -/

/-- A plain text message, used to instantiate batch claims. -/
def msgHello : ClaudeMessage := { type := "text", content := "hello" }

/-- A second plain text message, used to instantiate batch claims. -/
def msgWorld : ClaudeMessage := { type := "text", content := "world" }

/-! ## Claim C2: the description budget -/

/-- A 3900-character `Task` description (the source puts no cap on `Task`
summary lines). -/
def bigDesc : String := String.mk (List.replicate 3900 'a')

/-- A `Task` tool-use message carrying `bigDesc`. -/
def bigTaskMsg : ClaudeMessage :=
  { type := "tool_use"
  , metadata := some { name := some "Task", input := some { description := some bigDesc } } }

/-- A terminal completion message, for the C1 witness. -/
def termMsg : ClaudeMessage :=
  { type := "system", metadata := some { subtype := some "completion" } }

/-- A live state with a pending debounce timer and an edit in flight, for the
C1 witness. -/
def termSys : Sys :=
  { prog := { messageId := some "m", lines := ["line"], editTimer := some 0 }
   , inflight := some (PlatformCall.edit "m" { embeds := [] }) }

theorem trimLinesGo_spec (fuel : Nat) : ∀ p : ProgressState, ∃ d,
    trimLinesGo fuel p =
      { p with lines := p.lines.drop d, trimmedCount := p.trimmedCount + d } ∧
    d + min 1 p.lines.length ≤ p.lines.length := by
  induction fuel with
  | zero =>
    intro p
    exact ⟨0, by cases p; simp [trimLinesGo], by omega⟩
  | succ fuel ih =>
    intro p
    rw [trimLinesGo]
    split
    · next h =>
      obtain ⟨d, hd, hb⟩ :=
        ih { p with lines := p.lines.drop 1, trimmedCount := p.trimmedCount + 1 }
      simp only [List.length_drop] at hb
      simp only [Bool.and_eq_true, decide_eq_true_eq, gt_iff_lt] at h
      refine ⟨d + 1, ?_, by omega⟩
      rw [hd]
      congr 1
      · rw [List.drop_drop, Nat.add_comm]
      · show p.trimmedCount + 1 + d = p.trimmedCount + (d + 1)
        omega
    · exact ⟨0, by cases p; simp, by omega⟩

theorem trimLinesGo_fix : ∀ (fuel : Nat) (p : ProgressState), p.lines.length ≤ fuel →
    lenOk (trimLinesGo fuel p) := by
  intro fuel
  induction fuel with
  | zero =>
    intro p hp
    left
    simp only [trimLinesGo]
    omega
  | succ fuel ih =>
    intro p hp
    rw [trimLinesGo]
    split
    · apply ih
      simp only [List.length_drop]
      omega
    · next h =>
      simp only [Bool.and_eq_true, decide_eq_true_eq, not_and, not_lt, gt_iff_lt] at h
      by_cases h1 : p.lines.length ≤ 1
      · exact Or.inl h1
      · exact Or.inr (h (by omega))

theorem trimLines_spec (p : ProgressState) : ∃ d,
    trimLines p = { p with lines := p.lines.drop d, trimmedCount := p.trimmedCount + d } ∧
    d + min 1 p.lines.length ≤ p.lines.length :=
  trimLinesGo_spec p.lines.length p

theorem trimLines_fix (p : ProgressState) : lenOk (trimLines p) :=
  trimLinesGo_fix p.lines.length p le_rfl

/-! ## Lemmas: which parts of the state each effect touches -/

theorem completeInflight_prog (s : Sys) : (completeInflight s).prog = s.prog := by
  cases h : s.inflight <;> simp [completeInflight, h]

theorem doSend_prog (b : SenderBehavior) (content : MessageContent) (s : Sys) :
    (doSend b content s).2.prog = s.prog := by
  simp [doSend, completeInflight_prog]

theorem doEdit_prog (b : SenderBehavior) (mid : String) (content : MessageContent) (s : Sys) :
    (doEdit b mid content s).2.prog = s.prog := by
  simp [doEdit, completeInflight_prog]

theorem flushEdit_prog (b : SenderBehavior) (s : Sys) : (flushEdit b s).prog = s.prog := by
  unfold flushEdit
  split
  · rfl
  · exact doEdit_prog ..

theorem editWithSendFallback_prog (b : SenderBehavior) (mid : String)
    (content : MessageContent) (s : Sys) :
    (editWithSendFallback b mid content s).2.prog = s.prog := by
  unfold editWithSendFallback
  rcases h : (doEdit b mid content s).1 with _ | _ <;> simp [h, doEdit_prog, doSend_prog]

theorem sendInitialProgressMessage_prog (b : SenderBehavior) (s : Sys) :
    ∃ mid, (sendInitialProgressMessage b s).2.prog = { s.prog with messageId := mid } := by
  unfold sendInitialProgressMessage
  rcases h : (doSend b (runningContent s.prog) s).1 with e | msgId
  · exact ⟨s.prog.messageId, by simp [h, doSend_prog]⟩
  · exact ⟨if optTruthy msgId then msgId else none, by simp [h, doSend_prog]⟩

theorem sendInitialProgressMessage_trimmedCount (b : SenderBehavior) (s : Sys) :
    (sendInitialProgressMessage b s).2.prog.trimmedCount = s.prog.trimmedCount := by
  obtain ⟨mid, h⟩ := sendInitialProgressMessage_prog b s
  rw [h]

theorem sendSystemMessage_prog (b : SenderBehavior) (msg : ClaudeMessage) (s : Sys) :
    (sendSystemMessage b msg s).2.prog =
      if msg.subtype = some "completion" || msg.subtype = some "failure" then
        { s.prog with editTimer := none, pendingEdit := false, finished := true }
      else s.prog := by
  unfold sendSystemMessage
  by_cases hb : (decide (msg.subtype = some "completion") ||
      decide (msg.subtype = some "failure")) = true
  · simp only [hb, if_true, Bool.true_and]
    split
    · simp [editWithSendFallback_prog, completeInflight_prog]
    · simp [doSend_prog, completeInflight_prog]
  · simp only [Bool.not_eq_true] at hb
    simp only [hb, Bool.false_and, Bool.false_eq_true, if_false]
    simp [doSend_prog]

theorem sendSystemMessage_trimmedCount (b : SenderBehavior) (msg : ClaudeMessage) (s : Sys) :
    (sendSystemMessage b msg s).2.prog.trimmedCount = s.prog.trimmedCount := by
  rw [sendSystemMessage_prog]
  split <;> rfl

theorem trimLines_trimmed_le (p : ProgressState) :
    p.trimmedCount ≤ (trimLines p).trimmedCount := by
  obtain ⟨d, hd, -⟩ := trimLines_spec p
  rw [hd]
  exact Nat.le_add_right _ _

theorem sendSystemMessage_lines (b : SenderBehavior) (msg : ClaudeMessage) (s : Sys) :
    (sendSystemMessage b msg s).2.prog.lines = s.prog.lines := by
  rw [sendSystemMessage_prog]
  split <;> rfl

theorem sendSystemMessage_fullText (b : SenderBehavior) (msg : ClaudeMessage) (s : Sys) :
    (sendSystemMessage b msg s).2.prog.fullTextMessages = s.prog.fullTextMessages := by
  rw [sendSystemMessage_prog]
  split <;> rfl

/-- The rendered description only reads `lines` and `trimmedCount`. -/
theorem buildProgressDescription_congr (p q : ProgressState)
    (hl : q.lines = p.lines) (ht : q.trimmedCount = p.trimmedCount) :
    buildProgressDescription q = buildProgressDescription p := by
  simp [buildProgressDescription, hl, ht]

theorem lenOk_congr (p q : ProgressState)
    (hl : q.lines = p.lines) (ht : q.trimmedCount = p.trimmedCount) :
    lenOk p → lenOk q := by
  intro h
  unfold lenOk at h ⊢
  rw [hl, buildProgressDescription_congr p q hl ht]
  exact h

theorem flushOrNot_prog (b : SenderBehavior) (s1 : Sys) :
    (if s1.prog.pendingEdit || optTruthy s1.prog.messageId then flushEdit b s1
     else s1).prog = s1.prog := by
  split
  · rw [flushEdit_prog]
  · rfl

theorem handleSystem_prog (b : SenderBehavior) (msg : ClaudeMessage) (s : Sys) :
    (handleSystem b msg s).2.prog =
      if msg.subtype = some "completion" || msg.subtype = some "failure" then
        { s.prog with editTimer := none, pendingEdit := false, finished := true }
      else { s.prog with editTimer := none } := by
  unfold handleSystem
  rw [sendSystemMessage_prog, flushOrNot_prog]

theorem accumulateText_prog (msg : ClaudeMessage) (s : Sys) :
    (accumulateText msg s).prog =
      { s.prog with fullTextMessages := s.prog.fullTextMessages ++
          (if msg.type = "text" && trimStr msg.content ≠ "" then [trimStr msg.content]
           else []) } := by
  unfold accumulateText
  split
  · rfl
  · simp

theorem accumulateText_trace (msg : ClaudeMessage) (s : Sys) :
    (accumulateText msg s).trace = s.trace := by
  unfold accumulateText
  split <;> rfl

theorem classifyAppend_prog_spec (b : SenderBehavior) (line : String) (s3 : Sys) :
    ∃ d,
      (classifyAppend b line s3).2.prog.lines = (s3.prog.lines ++ [line]).drop d ∧
      d + min 1 (s3.prog.lines ++ [line]).length ≤ (s3.prog.lines ++ [line]).length ∧
      (classifyAppend b line s3).2.prog.trimmedCount = s3.prog.trimmedCount + d ∧
      (classifyAppend b line s3).2.prog.fullTextMessages = s3.prog.fullTextMessages ∧
      lenOk (classifyAppend b line s3).2.prog := by
  obtain ⟨d, hd, hbd⟩ := trimLines_spec { s3.prog with lines := s3.prog.lines ++ [line] }
  have hfix := trimLines_fix { s3.prog with lines := s3.prog.lines ++ [line] }
  have hlines : (trimLines { s3.prog with lines := s3.prog.lines ++ [line] }).lines =
      (s3.prog.lines ++ [line]).drop d := by rw [hd]
  have htrim : (trimLines { s3.prog with lines := s3.prog.lines ++ [line] }).trimmedCount =
      s3.prog.trimmedCount + d := by rw [hd]
  have hfull : (trimLines { s3.prog with lines :=
      s3.prog.lines ++ [line] }).fullTextMessages = s3.prog.fullTextMessages := by rw [hd]
  simp only [classifyAppend]
  split
  · obtain ⟨mid, hmid⟩ := sendInitialProgressMessage_prog b
      { s3 with prog := trimLines { s3.prog with lines := s3.prog.lines ++ [line] } }
    refine ⟨d, ?_, hbd, ?_, ?_, ?_⟩
    · rw [hmid]
      exact hlines
    · rw [hmid]
      exact htrim
    · rw [hmid]
      exact hfull
    · rw [hmid]
      exact lenOk_congr _ _ rfl rfl hfix
  · refine ⟨d, ?_, hbd, ?_, ?_, ?_⟩
    · exact hlines
    · exact htrim
    · exact hfull
    · exact lenOk_congr _ _ rfl rfl hfix

/-- How one iteration of the loop evolves the progress state, whatever the
platform answers: the message's classified line is appended and `d` lines are
evicted (oldest first, each counted), a non-empty text body is accumulated,
and the budget invariant is preserved. -/
theorem processOne_prog_spec (b : SenderBehavior) (skip : List String)
    (m : ClaudeMessage) (s : Sys) :
    ∃ d,
      (processOne b skip m s).2.prog.lines =
        (s.prog.lines ++ contribLines skip [m]).drop d ∧
      d + min 1 (s.prog.lines ++ contribLines skip [m]).length ≤
        (s.prog.lines ++ contribLines skip [m]).length ∧
      (processOne b skip m s).2.prog.trimmedCount = s.prog.trimmedCount + d ∧
      (processOne b skip m s).2.prog.fullTextMessages =
        s.prog.fullTextMessages ++ contribTexts skip [m] ∧
      (lenOk s.prog → lenOk (processOne b skip m s).2.prog) := by
  by_cases hdrop : droppedBySkipFilter skip m = true
  · have hcl : contribLines skip [m] = [] := by simp [contribLines, hdrop]
    have hct : contribTexts skip [m] = [] := by simp [contribTexts, hdrop]
    have hres : processOne b skip m s = (Except.ok (), s) := by simp [processOne, hdrop]
    rw [hres, hcl, hct]
    exact ⟨0, by simp, by simp only [List.append_nil]; omega, by simp, by simp,
      fun h => h⟩
  · have hdrop' : droppedBySkipFilter skip m = false := by
      rwa [Bool.not_eq_true] at hdrop
    by_cases hsys : m.type = "system"
    · have hsl : messageToSummaryLine m = none := by
        simp [messageToSummaryLine, hsys]
      have hcl : contribLines skip [m] = [] := by simp [contribLines, hdrop', hsl]
      have hct : contribTexts skip [m] = [] := by simp [contribTexts, hdrop', hsys]
      have hres : processOne b skip m s = handleSystem b m s := by
        simp [processOne, hdrop', hsys]
      have hlines : (handleSystem b m s).2.prog.lines = s.prog.lines := by
        rw [handleSystem_prog]
        split <;> rfl
      have htrim : (handleSystem b m s).2.prog.trimmedCount = s.prog.trimmedCount := by
        rw [handleSystem_prog]
        split <;> rfl
      have hfull : (handleSystem b m s).2.prog.fullTextMessages =
          s.prog.fullTextMessages := by
        rw [handleSystem_prog]
        split <;> rfl
      rw [hres, hcl, hct]
      refine ⟨0, by rw [hlines]; simp, by simp only [List.append_nil]; omega,
        by rw [htrim, Nat.add_zero], by rw [hfull]; simp, ?_⟩
      exact fun h => lenOk_congr s.prog _ hlines htrim h
    · have hct : contribTexts skip [m] =
          (if m.type = "text" && trimStr m.content ≠ "" then [trimStr m.content]
           else []) := by
        by_cases htext : m.type = "text" ∧ ¬trimStr m.content = "" <;>
          simp [contribTexts, hdrop', htext, List.filterMap_cons]
      have haccprog := accumulateText_prog m s
      have halines : (accumulateText m s).prog.lines = s.prog.lines := by
        rw [haccprog]
      have hatrim : (accumulateText m s).prog.trimmedCount = s.prog.trimmedCount := by
        rw [haccprog]
      have hafull : (accumulateText m s).prog.fullTextMessages =
          s.prog.fullTextMessages ++ contribTexts skip [m] := by
        rw [hct, haccprog]
      rcases hsl : messageToSummaryLine m with _ | line
      · have hcl : contribLines skip [m] = [] := by simp [contribLines, hdrop', hsl]
        have hres : processOne b skip m s = (Except.ok (), accumulateText m s) := by
          simp [processOne, hdrop', hsys, hsl]
        rw [hres, hcl]
        refine ⟨0, ?_, ?_, ?_, ?_, ?_⟩
        · show (accumulateText m s).prog.lines = (s.prog.lines ++ []).drop 0
          rw [halines]
          simp
        · simp only [List.append_nil]
          omega
        · show (accumulateText m s).prog.trimmedCount = s.prog.trimmedCount + 0
          rw [hatrim, Nat.add_zero]
        · exact hafull
        · exact fun h => lenOk_congr s.prog _ halines hatrim h
      · have hcl : contribLines skip [m] = [line] := by simp [contribLines, hdrop', hsl]
        have hres : processOne b skip m s =
            classifyAppend b line (accumulateText m s) := by
          simp [processOne, hdrop', hsys, hsl]
        obtain ⟨d, h1, h2, h3, h4, h5⟩ :=
          classifyAppend_prog_spec b line (accumulateText m s)
        refine ⟨d, ?_, ?_, ?_, ?_, ?_⟩
        · rw [hres, h1, halines, hcl]
        · rw [hcl]
          rw [halines] at h2
          exact h2
        · rw [hres, h3, hatrim]
        · rw [hres, h4, hafull]
        · exact fun _ => by rw [hres]; exact h5

theorem processOne_trimmed_mono (b : SenderBehavior) (skip : List String)
    (m : ClaudeMessage) (s : Sys) :
    s.prog.trimmedCount ≤ (processOne b skip m s).2.prog.trimmedCount := by
  obtain ⟨d, -, -, h3, -, -⟩ := processOne_prog_spec b skip m s
  rw [h3]
  exact Nat.le_add_right _ _

theorem processMessages_trimmed_mono (b : SenderBehavior) (skip : List String) :
    ∀ (msgs : List ClaudeMessage) (s : Sys),
      s.prog.trimmedCount ≤ (processMessages b skip msgs s).2.prog.trimmedCount := by
  intro msgs
  induction msgs with
  | nil => intro s; exact le_rfl
  | cons m rest ih =>
    intro s
    simp only [processMessages]
    rcases h : (processOne b skip m s).1 with e | u
    · simp only [h]
      exact processOne_trimmed_mono b skip m s
    · simp only [h]
      calc s.prog.trimmedCount
          ≤ (processOne b skip m s).2.prog.trimmedCount := processOne_trimmed_mono b skip m s
        _ ≤ _ := ih _

/-- C3: eviction always removes lines from the oldest end, one at a time (the
surviving lines are obtained by dropping exactly the counted lines from the
front), never empties a non-empty line list, `trimmedCount` grows by exactly
the number of evictions (after N evictions it equals N), is monotonically
non-decreasing under message processing, and is reset (to zero) by
`resetProgress`. -/
theorem claim_C3_eviction_oldest_first
    (p : ProgressState) (b : SenderBehavior) (skip : List String)
    (msgs : List ClaudeMessage) (s : Sys) (prompt messageId : Option String) :
    (∃ d, trimLines p =
        { p with lines := p.lines.drop d, trimmedCount := p.trimmedCount + d }) ∧
    (trimLines p).trimmedCount =
      p.trimmedCount + (p.lines.length - (trimLines p).lines.length) ∧
    (p.lines ≠ [] → (trimLines p).lines ≠ []) ∧
    p.trimmedCount ≤ (trimLines p).trimmedCount ∧
    s.prog.trimmedCount ≤ (processMessages b skip msgs s).2.prog.trimmedCount ∧
    (resetProgress prompt messageId).trimmedCount = 0 := by
  obtain ⟨d, hd, hb⟩ := trimLines_spec p
  have hlen : (trimLines p).lines.length = p.lines.length - d := by
    rw [hd]
    exact List.length_drop ..
  refine ⟨⟨d, hd⟩, ?_, ?_, ?_, processMessages_trimmed_mono .., rfl⟩
  · rw [hd]
    show p.trimmedCount + d = p.trimmedCount + (p.lines.length - (p.lines.drop d).length)
    simp only [List.length_drop]
    omega
  · intro hne
    have hpos : 0 < p.lines.length := List.length_pos.2 hne
    rw [← List.length_pos, hlen]
    omega
  · rw [hd]
    exact Nat.le_add_right _ _

/-- C3 witness: a non-empty line list stays non-empty through trimming. -/
theorem claim_C3_eviction_oldest_first_witness :
    (trimLines { lines := ["line one"] } : ProgressState).lines ≠ [] :=
  (claim_C3_eviction_oldest_first { lines := ["line one"] } bOk [] [] sys0
    none none).2.2.1 (by decide)

theorem shouldSkipMessage_iff (msg : ClaudeMessage) (skip : List String) :
    shouldSkipMessage msg skip = true ↔
      ∃ t ∈ messageTags msg, skip.contains t = true := by
  unfold shouldSkipMessage messageTags
  cases h : msg.metadata.bind (·.subtype) with
  | none =>
    cases hA : skip.contains (toLowerStr msg.type) <;> simp [h, hA]
  | some st =>
    by_cases hst : st = ""
    · cases hA : skip.contains (toLowerStr msg.type) <;> simp [h, hst, hA]
    · cases hA : skip.contains (toLowerStr msg.type) <;> simp [h, hst, hA]

/-- C5: a system message with subtype `completion` or `failure` is never
dropped by the skip filter; otherwise a message is dropped exactly when one of
its lower-cased `type` / `type:subtype` tags is in the configured skip set. -/
theorem claim_C5_skip_filter (skip : List String) (m : ClaudeMessage) :
    (m.type = "system" →
      (m.subtype = some "completion" ∨ m.subtype = some "failure") →
      droppedBySkipFilter skip m = false) ∧
    (droppedBySkipFilter skip m = true ↔
      isInternalSystem m = false ∧ ∃ t ∈ messageTags m, skip.contains t = true) := by
  constructor
  · intro ht hsub
    unfold droppedBySkipFilter isInternalSystem
    rcases hsub with h | h <;> simp [ht, h]
  · unfold droppedBySkipFilter
    rw [Bool.and_eq_true, Bool.not_eq_true', shouldSkipMessage_iff]

theorem completeInflight_trace (s : Sys) :
    (completeInflight s).trace = s.trace ++ inflightEndEvents s := by
  cases h : s.inflight <;> simp [completeInflight, inflightEndEvents, h]

theorem completeInflight_inflight (s : Sys) : (completeInflight s).inflight = none := by
  cases h : s.inflight <;> simp [completeInflight, h]

theorem doSend_trace (b : SenderBehavior) (content : MessageContent) (s : Sys) :
    (doSend b content s).2.trace =
      s.trace ++ inflightEndEvents s ++
        [TraceEv.callStart (PlatformCall.send content),
         TraceEv.callEnd (PlatformCall.send content)] := by
  simp [doSend, completeInflight_trace]

theorem doSend_inflight (b : SenderBehavior) (content : MessageContent) (s : Sys) :
    (doSend b content s).2.inflight = none := by
  simp [doSend, completeInflight_inflight]

theorem doEdit_trace (b : SenderBehavior) (mid : String) (content : MessageContent) (s : Sys) :
    (doEdit b mid content s).2.trace =
      s.trace ++ inflightEndEvents s ++
        [TraceEv.callStart (PlatformCall.edit mid content),
         TraceEv.callEnd (PlatformCall.edit mid content)] := by
  simp [doEdit, completeInflight_trace]

theorem doEdit_inflight (b : SenderBehavior) (mid : String) (content : MessageContent)
    (s : Sys) : (doEdit b mid content s).2.inflight = none := by
  simp [doEdit, completeInflight_inflight]

theorem inflightEndEvents_no_start (s : Sys) (c : PlatformCall) :
    TraceEv.callStart c ∉ inflightEndEvents s := by
  cases h : s.inflight <;> simp [inflightEndEvents, h]

/-- Every call `editWithSendFallback` issues carries the given content: the
edit of the target message, and on edit failure one fallback send. -/
theorem editWithSendFallback_calls (b : SenderBehavior) (mid : String)
    (content : MessageContent) (s : Sys) :
    ∃ Δ, (editWithSendFallback b mid content s).2.trace = s.trace ++ Δ ∧
      TraceEv.callStart (PlatformCall.edit mid content) ∈ Δ ∧
      ∀ c, TraceEv.callStart c ∈ Δ →
        c = PlatformCall.edit mid content ∨ c = PlatformCall.send content := by
  unfold editWithSendFallback
  rcases h : (doEdit b mid content s).1 with e | u
  · simp only [h]
    refine ⟨inflightEndEvents s ++
      [TraceEv.callStart (PlatformCall.edit mid content),
       TraceEv.callEnd (PlatformCall.edit mid content)] ++
      [TraceEv.callStart (PlatformCall.send content),
       TraceEv.callEnd (PlatformCall.send content)], ?_, ?_, ?_⟩
    · rw [doSend_trace, doEdit_trace]
      have : inflightEndEvents (doEdit b mid content s).2 = [] := by
        simp [inflightEndEvents, doEdit_inflight]
      rw [this]
      simp
    · simp
    · intro c hc
      simp only [List.append_assoc, List.mem_append, List.mem_cons, List.not_mem_nil,
        or_false] at hc
      rcases hc with hc | hc
      · exact absurd hc (inflightEndEvents_no_start s c)
      · rcases hc with hc | hc | hc | hc <;> simp_all
  · simp only [h]
    refine ⟨inflightEndEvents s ++
      [TraceEv.callStart (PlatformCall.edit mid content),
       TraceEv.callEnd (PlatformCall.edit mid content)], ?_, ?_, ?_⟩
    · rw [doEdit_trace]
      simp
    · simp
    · intro c hc
      simp only [List.mem_append, List.mem_cons, List.not_mem_nil, or_false] at hc
      rcases hc with hc | hc | hc
      · exact absurd hc (inflightEndEvents_no_start s c)
      · simp_all
      · simp_all

/-- Every call issued by the terminal path of `sendSystemMessage` (the
in-place edit, or its fallback send) carries the content built from the
pre-terminal progress state. -/
theorem sendSystemMessage_calls (b : SenderBehavior) (msg : ClaudeMessage) (s : Sys)
    (hbool : (decide (msg.subtype = some "completion") ||
      decide (msg.subtype = some "failure")) = true) :
    ∃ Δ, (sendSystemMessage b msg s).2.trace = s.trace ++ Δ ∧
      (∃ c, TraceEv.callStart c ∈ Δ) ∧
      ∀ c, TraceEv.callStart c ∈ Δ →
        c = PlatformCall.send (buildSystemMessageContent s.prog msg) ∨
        ∃ mid, c = PlatformCall.edit mid (buildSystemMessageContent s.prog msg) := by
  unfold sendSystemMessage
  simp only [hbool, if_true, Bool.true_and]
  set sMut : Sys :=
    { s with prog :=
      { s.prog with editTimer := none, pendingEdit := false, finished := true } } with hsMut
  set s2 : Sys := completeInflight sMut with hs2
  have htr2 : s2.trace = s.trace ++ inflightEndEvents sMut := by
    rw [hs2, completeInflight_trace]
  have hinf2 : s2.inflight = none := by
    rw [hs2]
    exact completeInflight_inflight _
  split
  · obtain ⟨Δe, hΔe, hmem, hall⟩ :=
      editWithSendFallback_calls b (s2.prog.messageId.getD "")
        (buildSystemMessageContent s.prog msg) s2
    refine ⟨inflightEndEvents sMut ++ Δe, ?_, ?_, ?_⟩
    · rw [hΔe, htr2, List.append_assoc]
    · exact ⟨_, List.mem_append_right _ hmem⟩
    · intro c hc
      rcases List.mem_append.1 hc with hc | hc
      · exact absurd hc (inflightEndEvents_no_start sMut c)
      · rcases hall c hc with h | h
        · exact Or.inr ⟨_, h⟩
        · exact Or.inl h
  · refine ⟨inflightEndEvents sMut ++
      [TraceEv.callStart (PlatformCall.send (buildSystemMessageContent s.prog msg)),
       TraceEv.callEnd (PlatformCall.send (buildSystemMessageContent s.prog msg))],
      ?_, ?_, ?_⟩
    · show (doSend b (buildSystemMessageContent s.prog msg) s2).2.trace = _
      rw [doSend_trace, htr2]
      have : inflightEndEvents s2 = [] := by simp [inflightEndEvents, hinf2]
      rw [this]
      simp
    · exact ⟨PlatformCall.send (buildSystemMessageContent s.prog msg),
        List.mem_append_right _ (by simp)⟩
    · intro c hc
      rcases List.mem_append.1 hc with hc | hc
      · exact absurd hc (inflightEndEvents_no_start sMut c)
      · simp only [List.mem_cons, List.not_mem_nil, or_false] at hc
        rcases hc with hc | hc <;> simp_all

/-- C6: at completion or failure finalization, the file attachment is present
exactly when the accumulated assistant text exceeds 2000 characters, it then
holds the full concatenation joined by the visible `---` separator, and every
platform call the finalization issues (the in-place edit, or its fallback
send) carries exactly that built content. -/
theorem claim_C6_attachment_over_2000 (b : SenderBehavior) (msg : ClaudeMessage) (s : Sys)
    (hterm : msg.subtype = some "completion" ∨ msg.subtype = some "failure") :
    ((s.prog.fullTextMessages.map String.length).sum > 2000 →
      (buildSystemMessageContent s.prog msg).files =
        [{ path := strIntercalate "\n\n---\n\n" s.prog.fullTextMessages
         , name := "response.md", description := "Full Claude response" }]) ∧
    ((s.prog.fullTextMessages.map String.length).sum ≤ 2000 →
      (buildSystemMessageContent s.prog msg).files = []) ∧
    (∀ c, TraceEv.callStart c ∈
        (sendSystemMessage b msg s).2.trace.drop s.trace.length →
      c = PlatformCall.send (buildSystemMessageContent s.prog msg) ∨
      ∃ mid, c = PlatformCall.edit mid (buildSystemMessageContent s.prog msg)) ∧
    (∃ c, TraceEv.callStart c ∈
      (sendSystemMessage b msg s).2.trace.drop s.trace.length) := by
  have hbool : (decide (msg.subtype = some "completion") ||
      decide (msg.subtype = some "failure")) = true := by
    rcases hterm with h | h <;> simp [h]
  obtain ⟨Δ, hΔ, hex, hall⟩ := sendSystemMessage_calls b msg s hbool
  have hdrop : (sendSystemMessage b msg s).2.trace.drop s.trace.length = Δ := by
    rw [hΔ]
    exact List.drop_left ..
  refine ⟨?_, ?_, ?_, ?_⟩
  · intro h1
    simp only [buildSystemMessageContent]
    simp [hbool, h1]
  · intro h1
    have h2 : ¬ (s.prog.fullTextMessages.map String.length).sum > 2000 := by omega
    simp only [buildSystemMessageContent]
    simp [hbool, h2]
  · intro c hc
    rw [hdrop] at hc
    exact hall c hc
  · obtain ⟨c, hc⟩ := hex
    exact ⟨c, by rw [hdrop]; exact hc⟩

/-- C9 counterexample: `findWorktreeForBareRepo` accepts (and returns) a
listed worktree that is *not* a direct descendant of the bare directory — the
prefix check accepts descendants at any depth. -/
theorem claim_C9_counterexample :
    findWorktreeForBareRepo nestedWtEnv "/repo" = some "/repo/a/b" ∧
    isDirectDescendant "/repo" "/repo/a/b" = false := by
  constructor
  · rfl
  · decide

/-- C9 (amended): the candidates are the listed worktrees whose path is a
descendant of the bare directory (prefix plus path separator, at any depth),
existing on disk and carrying a genuine `gitdir:` worktree-link marker; a
candidate ending in `main`/`master` is preferred when one exists, otherwise
the first candidate is returned, and `none` is returned exactly when there is
no valid candidate. -/
theorem claim_C9_bare_repo_worktree_amended (env : FsGitEnv) (bareDir : String) :
    (findWorktreeForBareRepo env bareDir = none ↔
      bareWorktreeCandidates env bareDir = []) ∧
    (∀ p, findWorktreeForBareRepo env bareDir = some p →
      p ∈ getWorktreeList env bareDir ∧
      (startsWithStr p (bareDir ++ "/") || startsWithStr p (bareDir ++ "\\")) = true ∧
      env.statOk p = true ∧
      ∃ g, env.readFile (p ++ "/.git") = some g ∧ strContains g "gitdir:" = true) ∧
    ((∃ q ∈ bareWorktreeCandidates env bareDir, prefersMainOrMaster q = true) →
      ∃ p, findWorktreeForBareRepo env bareDir = some p ∧ prefersMainOrMaster p = true) ∧
    (∀ c cs, bareWorktreeCandidates env bareDir = c :: cs →
      (∀ q ∈ c :: cs, prefersMainOrMaster q = false) →
      findWorktreeForBareRepo env bareDir = some c) := by
  have hmem : ∀ p, p ∈ bareWorktreeCandidates env bareDir →
      p ∈ getWorktreeList env bareDir ∧
      (startsWithStr p (bareDir ++ "/") || startsWithStr p (bareDir ++ "\\")) = true ∧
      env.statOk p = true ∧
      ∃ g, env.readFile (p ++ "/.git") = some g ∧ strContains g "gitdir:" = true := by
    intro p hp
    obtain ⟨hlist, hvalid⟩ := List.mem_filter.1 hp
    unfold isValidBareWorktreeCandidate at hvalid
    simp only [Bool.and_eq_true] at hvalid
    refine ⟨hlist, hvalid.1.1, hvalid.1.2, ?_⟩
    rcases hg : env.readFile (p ++ "/.git") with _ | g
    · rw [hg] at hvalid
      exact absurd hvalid.2 (by simp)
    · rw [hg] at hvalid
      exact ⟨g, rfl, hvalid.2⟩
  unfold findWorktreeForBareRepo
  rcases hc : bareWorktreeCandidates env bareDir with _ | ⟨c, cs⟩ <;> dsimp only
  · refine ⟨by simp, by simp, ?_, by simp⟩
    rintro ⟨q, hq, -⟩
    exact absurd hq (List.not_mem_nil q)
  · refine ⟨?_, ?_, ?_, ?_⟩
    · constructor
      · intro h
        rcases hf : (c :: cs).find? prefersMainOrMaster with _ | q <;> simp [hf] at h
      · intro h
        exact absurd h (by simp)
    · intro p hp
      rcases hf : (c :: cs).find? prefersMainOrMaster with _ | q <;> rw [hf] at hp <;>
        simp only [Option.some.injEq] at hp
      · apply hmem
        rw [hc, ← hp]
        exact List.mem_cons_self ..
      · apply hmem
        rw [hc, ← hp]
        exact List.mem_of_find?_eq_some hf
    · rintro ⟨q, hq, hqpref⟩
      rcases hf : (c :: cs).find? prefersMainOrMaster with _ | r
      · have := List.find?_eq_none.1 hf q hq
        rw [hqpref] at this
        exact absurd rfl this
      · exact ⟨r, rfl, List.find?_some hf⟩
    · intro c' cs' hcc hall
      injection hcc with h1 h2
      have hf : (c :: cs).find? prefersMainOrMaster = none := by
        apply List.find?_eq_none.2
        intro q hq
        rw [hall q (by rw [h1, h2] at hq; exact hq)]
        simp
      rw [hf, h1]

/-- C9 witness: with a `main` worktree among the candidates, the preferred
candidate is returned. -/
theorem claim_C9_bare_repo_worktree_amended_witness :
    ∃ p, findWorktreeForBareRepo mainWtEnv "/repo" = some p ∧
      prefersMainOrMaster p = true :=
  (claim_C9_bare_repo_worktree_amended mainWtEnv "/repo").2.2.1
    ⟨"/repo/main", by decide, by decide⟩

/-- The early-return branch of `createWorktree`: an existing worktree for the
branch short-circuits to a pre-existing-tagged result carrying its path. -/
theorem createWorktree_existing (tool : GitTool) (env : FsGitEnv)
    (workDir branch : String) (ref : Option String) (p : String)
    (hp : findWorktreeForBranch env (resolveBaseRepoDir env workDir) branch = some p) :
    createWorktree tool env workDir branch ref =
      ({ result := "Found existing worktree. Path: " ++ p, fullPath := p
       , baseDir := resolveBaseRepoDir env workDir, isExisting := true }, env) := by
  unfold createWorktree
  simp only [hp]

/-- C8: `createWorktree` is idempotent per branch — when a worktree for the
branch is already listed, the call returns a result tagged pre-existing with
that worktree's path (not an error); consequently, if the first call's
`git worktree add` leaves the environment listing the branch at the created
path (which is what the external tool does on success), a second call with
the same branch returns pre-existing with the identical path. -/
theorem claim_C8_createWorktree_idempotent (tool : GitTool) (env : FsGitEnv)
    (workDir branch : String) (ref : Option String) :
    (∀ p, findWorktreeForBranch env (resolveBaseRepoDir env workDir) branch = some p →
      (createWorktree tool env workDir branch ref).1 =
        { result := "Found existing worktree. Path: " ++ p, fullPath := p
        , baseDir := resolveBaseRepoDir env workDir, isExisting := true }) ∧
    (findWorktreeForBranch (createWorktree tool env workDir branch ref).2
        (resolveBaseRepoDir (createWorktree tool env workDir branch ref).2 workDir) branch =
      some (createWorktree tool env workDir branch ref).1.fullPath →
      (createWorktree tool (createWorktree tool env workDir branch ref).2
        workDir branch ref).1.isExisting = true ∧
      (createWorktree tool (createWorktree tool env workDir branch ref).2
        workDir branch ref).1.fullPath =
        (createWorktree tool env workDir branch ref).1.fullPath) := by
  constructor
  · intro p hp
    rw [createWorktree_existing tool env workDir branch ref p hp]
  · intro h
    rw [createWorktree_existing tool _ workDir branch ref _ h]
    exact ⟨rfl, rfl⟩

/-- C8 witness: creating the worktree for `feat` and calling again returns a
pre-existing result with the identical path. -/
theorem claim_C8_createWorktree_idempotent_witness :
    (createWorktree registeringTool
      (createWorktree registeringTool freshEnv "/repo" "feat" none).2
      "/repo" "feat" none).1.isExisting = true ∧
    (createWorktree registeringTool
      (createWorktree registeringTool freshEnv "/repo" "feat" none).2
      "/repo" "feat" none).1.fullPath =
      (createWorktree registeringTool freshEnv "/repo" "feat" none).1.fullPath :=
  (claim_C8_createWorktree_idempotent registeringTool freshEnv "/repo" "feat" none).2
    (by decide)

set_option maxRecDepth 40000 in
/-- C6 witness: with 2002 characters accumulated, a completion message gets
the full-text file attachment, joined by the visible separator. -/
theorem claim_C6_attachment_over_2000_witness :
    (buildSystemMessageContent bigTextSys.prog
      { type := "system", content := "",
        metadata := some { subtype := some "completion" } }).files =
      [{ path := strIntercalate "\n\n---\n\n" bigTextSys.prog.fullTextMessages
       , name := "response.md", description := "Full Claude response" }] :=
  (claim_C6_attachment_over_2000 bOk
    { type := "system", content := "", metadata := some { subtype := some "completion" } }
    bigTextSys (Or.inl rfl)).1 (by decide)

theorem doSend_ok (b : SenderBehavior) (content : MessageContent) (s : Sys)
    (hb : SendsOk b) : ∃ v, (doSend b content s).1 = Except.ok v :=
  hb _

theorem map_doSend_ok (b : SenderBehavior) (content : MessageContent) (s : Sys)
    (hb : SendsOk b) :
    (doSend b content s).1.map (fun _ => ()) = Except.ok () := by
  obtain ⟨v, hv⟩ := doSend_ok b content s hb
  simp [hv, Except.map]

theorem editWithSendFallback_ok (b : SenderBehavior) (mid : String)
    (content : MessageContent) (s : Sys) (hb : SendsOk b) :
    (editWithSendFallback b mid content s).1 = Except.ok () := by
  unfold editWithSendFallback
  rcases h : (doEdit b mid content s).1 with e | u <;> simp only [h]
  exact map_doSend_ok b content (doEdit b mid content s).2 hb

theorem sendInitialProgressMessage_ok (b : SenderBehavior) (s : Sys) (hb : SendsOk b) :
    (sendInitialProgressMessage b s).1 = Except.ok () := by
  unfold sendInitialProgressMessage
  obtain ⟨v, hv⟩ := doSend_ok b (runningContent s.prog) s hb
  simp only [hv]

theorem sendSystemMessage_ok (b : SenderBehavior) (msg : ClaudeMessage) (s : Sys)
    (hb : SendsOk b) : (sendSystemMessage b msg s).1 = Except.ok () := by
  unfold sendSystemMessage
  by_cases hbool : (decide (msg.subtype = some "completion") ||
      decide (msg.subtype = some "failure")) = true
  · simp only [hbool, if_true, Bool.true_and]
    split
    · exact editWithSendFallback_ok b _ _ _ hb
    · exact map_doSend_ok b _ _ hb
  · simp only [Bool.not_eq_true] at hbool
    simp only [hbool, Bool.false_and, Bool.false_eq_true, if_false]
    exact map_doSend_ok b _ _ hb

theorem traceExt_of_eq (s s' : Sys) (h : s'.trace = s.trace) : TraceExt s s' :=
  ⟨[], by simp [h], by simp⟩

theorem traceExt_trans {s1 s2 s3 : Sys} (h12 : TraceExt s1 s2) (h23 : TraceExt s2 s3) :
    TraceExt s1 s3 := by
  obtain ⟨Δ1, h1, hc1⟩ := h12
  obtain ⟨Δ2, h2, hc2⟩ := h23
  refine ⟨Δ1 ++ Δ2, by rw [h2, h1, List.append_assoc], ?_⟩
  intro ev hev
  rcases List.mem_append.1 hev with h | h
  · exact hc1 ev h
  · exact hc2 ev h

theorem inflightEndEvents_callEv (s : Sys) :
    ∀ ev ∈ inflightEndEvents s, isCallEv ev = true := by
  cases h : s.inflight <;> simp [inflightEndEvents, h, isCallEv]

theorem traceExt_completeInflight (s : Sys) : TraceExt s (completeInflight s) :=
  ⟨inflightEndEvents s, completeInflight_trace s, inflightEndEvents_callEv s⟩

theorem traceExt_doSend (b : SenderBehavior) (content : MessageContent) (s : Sys) :
    TraceExt s (doSend b content s).2 := by
  refine ⟨inflightEndEvents s ++
    [TraceEv.callStart (PlatformCall.send content),
     TraceEv.callEnd (PlatformCall.send content)],
    by rw [doSend_trace, List.append_assoc], ?_⟩
  intro ev hev
  rcases List.mem_append.1 hev with h | h
  · exact inflightEndEvents_callEv s ev h
  · simp only [List.mem_cons, List.not_mem_nil, or_false] at h
    rcases h with h | h <;> subst h <;> rfl

theorem traceExt_doEdit (b : SenderBehavior) (mid : String) (content : MessageContent)
    (s : Sys) : TraceExt s (doEdit b mid content s).2 := by
  refine ⟨inflightEndEvents s ++
    [TraceEv.callStart (PlatformCall.edit mid content),
     TraceEv.callEnd (PlatformCall.edit mid content)],
    by rw [doEdit_trace, List.append_assoc], ?_⟩
  intro ev hev
  rcases List.mem_append.1 hev with h | h
  · exact inflightEndEvents_callEv s ev h
  · simp only [List.mem_cons, List.not_mem_nil, or_false] at h
    rcases h with h | h <;> subst h <;> rfl

theorem traceExt_flushEdit (b : SenderBehavior) (s : Sys) : TraceExt s (flushEdit b s) := by
  unfold flushEdit
  split
  · exact traceExt_of_eq s s rfl
  · exact traceExt_doEdit ..

theorem traceExt_editWithSendFallback (b : SenderBehavior) (mid : String)
    (content : MessageContent) (s : Sys) :
    TraceExt s (editWithSendFallback b mid content s).2 := by
  unfold editWithSendFallback
  rcases h : (doEdit b mid content s).1 with e | u <;> simp only [h]
  · obtain ⟨Δ, hΔ, hc⟩ := traceExt_trans (traceExt_doEdit b mid content s)
      (traceExt_doSend b content (doEdit b mid content s).2)
    exact ⟨Δ, hΔ, hc⟩
  · exact traceExt_doEdit b mid content s

theorem traceExt_sendInitialProgressMessage (b : SenderBehavior) (s : Sys) :
    TraceExt s (sendInitialProgressMessage b s).2 := by
  unfold sendInitialProgressMessage
  rcases h : (doSend b (runningContent s.prog) s).1 with e | mid <;> simp only [h]
  · exact traceExt_doSend ..
  · obtain ⟨Δ, hΔ, hc⟩ := traceExt_doSend b (runningContent s.prog) s
    exact ⟨Δ, hΔ, hc⟩

theorem traceExt_sendSystemMessage (b : SenderBehavior) (msg : ClaudeMessage) (s : Sys) :
    TraceExt s (sendSystemMessage b msg s).2 := by
  unfold sendSystemMessage
  by_cases hbool : (decide (msg.subtype = some "completion") ||
      decide (msg.subtype = some "failure")) = true
  · simp only [hbool, if_true, Bool.true_and]
    set sMut : Sys :=
      { s with prog :=
        { s.prog with editTimer := none, pendingEdit := false, finished := true } } with hsMut
    have h1 : TraceExt s (completeInflight sMut) :=
      ⟨inflightEndEvents sMut, by rw [completeInflight_trace], inflightEndEvents_callEv sMut⟩
    split
    · obtain ⟨Δ, hΔ, hc⟩ := traceExt_trans h1
        (traceExt_editWithSendFallback b ((completeInflight sMut).prog.messageId.getD "")
          (buildSystemMessageContent s.prog msg) (completeInflight sMut))
      exact ⟨Δ, hΔ, hc⟩
    · obtain ⟨Δ, hΔ, hc⟩ := traceExt_trans h1
        (traceExt_doSend b (buildSystemMessageContent s.prog msg) (completeInflight sMut))
      exact ⟨Δ, hΔ, hc⟩
  · simp only [Bool.not_eq_true] at hbool
    simp only [hbool, Bool.false_and, Bool.false_eq_true, if_false]
    obtain ⟨Δ, hΔ, hc⟩ := traceExt_doSend b (buildSystemMessageContent s.prog msg) s
    exact ⟨Δ, hΔ, hc⟩

/-- C5 witness: even with `system` and `system:completion` in the skip set, a
completion system message is not dropped. -/
theorem claim_C5_skip_filter_witness :
    droppedBySkipFilter ["system", "system:completion"]
      { type := "system", metadata := some { subtype := some "completion" } } = false :=
  (claim_C5_skip_filter ["system", "system:completion"]
    { type := "system", metadata := some { subtype := some "completion" } }).1
    rfl (Or.inl rfl)

/-! ## Success and trace lemmas for a whole loop iteration and batch -/

theorem traceExt_congr_left {s s' t : Sys} (h : s'.trace = s.trace) (he : TraceExt s' t) :
    TraceExt s t := by
  obtain ⟨Δ, hΔ, hc⟩ := he
  exact ⟨Δ, by rw [hΔ, h], hc⟩

theorem handleSystem_ok (b : SenderBehavior) (msg : ClaudeMessage) (s : Sys)
    (hb : SendsOk b) : (handleSystem b msg s).1 = Except.ok () := by
  unfold handleSystem
  exact sendSystemMessage_ok b msg _ hb

theorem classifyAppend_ok (b : SenderBehavior) (line : String) (s : Sys)
    (hb : SendsOk b) : (classifyAppend b line s).1 = Except.ok () := by
  simp only [classifyAppend]
  split
  · exact sendInitialProgressMessage_ok b _ hb
  · rfl

theorem processOne_ok (b : SenderBehavior) (skip : List String) (m : ClaudeMessage)
    (s : Sys) (hb : SendsOk b) : (processOne b skip m s).1 = Except.ok () := by
  unfold processOne
  split
  · rfl
  split
  · exact handleSystem_ok b m s hb
  · rcases h : messageToSummaryLine m with _ | line
    · simp [h]
    · simp only [h]
      exact classifyAppend_ok b line _ hb

theorem traceExt_classifyAppend (b : SenderBehavior) (line : String) (s : Sys) :
    TraceExt s (classifyAppend b line s).2 := by
  simp only [classifyAppend]
  split
  · exact traceExt_congr_left rfl (traceExt_sendInitialProgressMessage b _)
  · exact traceExt_of_eq s _ rfl

theorem traceExt_handleSystem (b : SenderBehavior) (msg : ClaudeMessage) (s : Sys) :
    TraceExt s (handleSystem b msg s).2 := by
  simp only [handleSystem]
  split
  · refine traceExt_congr_left ?_
      (traceExt_trans
        (traceExt_flushEdit b { s with prog := { s.prog with editTimer := none } })
        (traceExt_sendSystemMessage b msg _))
    rfl
  · refine traceExt_congr_left ?_
      (traceExt_sendSystemMessage b msg
        { s with prog := { s.prog with editTimer := none } })
    rfl

theorem traceExt_processOne (b : SenderBehavior) (skip : List String)
    (m : ClaudeMessage) (s : Sys) : TraceExt s (processOne b skip m s).2 := by
  unfold processOne
  split
  · exact traceExt_of_eq s _ rfl
  split
  · exact traceExt_handleSystem b m s
  · rcases h : messageToSummaryLine m with _ | line <;> simp only [h]
    · exact traceExt_of_eq s _ (accumulateText_trace m s)
    · exact traceExt_congr_left (accumulateText_trace m s) (traceExt_classifyAppend b line _)

theorem contribLines_cons (skip : List String) (m : ClaudeMessage)
    (rest : List ClaudeMessage) :
    contribLines skip (m :: rest) = contribLines skip [m] ++ contribLines skip rest := by
  rcases h : (if droppedBySkipFilter skip m then none else messageToSummaryLine m)
    with _ | v <;> simp [contribLines, List.filterMap_cons, h]

theorem contribTexts_cons (skip : List String) (m : ClaudeMessage)
    (rest : List ClaudeMessage) :
    contribTexts skip (m :: rest) = contribTexts skip [m] ++ contribTexts skip rest := by
  rcases h : (if droppedBySkipFilter skip m then none
      else if m.type = "text" && trimStr m.content ≠ "" then some (trimStr m.content)
      else none) with _ | v <;>
    simp only [contribTexts, List.filterMap_cons, List.filterMap_nil, h] <;> simp

theorem traceExt_processMessages (b : SenderBehavior) (skip : List String) :
    ∀ (msgs : List ClaudeMessage) (s : Sys),
      TraceExt s (processMessages b skip msgs s).2 := by
  intro msgs
  induction msgs with
  | nil => intro s; exact traceExt_of_eq s _ rfl
  | cons m rest ih =>
    intro s
    simp only [processMessages]
    rcases h : (processOne b skip m s).1 with e | u <;> simp only [h]
    · exact traceExt_processOne b skip m s
    · exact traceExt_trans (traceExt_processOne b skip m s) (ih _)

/-- The whole batch loop, when every platform send succeeds: no abort, trace
extended only by call events, lines are the old lines plus every message's
contribution with `d` evictions from the oldest end, and the accumulation
side-channel gains exactly the batch's non-empty text bodies. -/
theorem processMessages_spec (b : SenderBehavior) (skip : List String) (hb : SendsOk b) :
    ∀ (msgs : List ClaudeMessage) (s : Sys),
      (processMessages b skip msgs s).1 = Except.ok () ∧
      TraceExt s (processMessages b skip msgs s).2 ∧
      ∃ d,
        (processMessages b skip msgs s).2.prog.lines =
          (s.prog.lines ++ contribLines skip msgs).drop d ∧
        d + min 1 (s.prog.lines ++ contribLines skip msgs).length ≤
          (s.prog.lines ++ contribLines skip msgs).length ∧
        (processMessages b skip msgs s).2.prog.trimmedCount = s.prog.trimmedCount + d ∧
        (processMessages b skip msgs s).2.prog.fullTextMessages =
          s.prog.fullTextMessages ++ contribTexts skip msgs ∧
        (lenOk s.prog → lenOk (processMessages b skip msgs s).2.prog) := by
  intro msgs
  induction msgs with
  | nil =>
    intro s
    refine ⟨rfl, traceExt_of_eq s _ rfl, 0, ?_, ?_, ?_, ?_, fun h => h⟩
    · simp [processMessages, contribLines]
    · simp
    · simp [processMessages]
    · simp [processMessages, contribTexts]
  | cons m rest ih =>
    intro s
    have hok := processOne_ok b skip m s hb
    have hpm : processMessages b skip (m :: rest) s =
        processMessages b skip rest (processOne b skip m s).2 := by
      simp only [processMessages]
      rw [hok]
    obtain ⟨d1, h1l, h1b, h1t, h1f, h1k⟩ := processOne_prog_spec b skip m s
    obtain ⟨okr, ter, d2, h2l, h2b, h2t, h2f, h2k⟩ := ih (processOne b skip m s).2
    have hcl := contribLines_cons skip m rest
    have hct := contribTexts_cons skip m rest
    have hd1le : d1 ≤ (s.prog.lines ++ contribLines skip [m]).length := by omega
    have hlines : (processMessages b skip (m :: rest) s).2.prog.lines =
        (s.prog.lines ++ contribLines skip (m :: rest)).drop (d1 + d2) := by
      rw [hpm, h2l, h1l, hcl, ← List.drop_append_of_le_length hd1le, List.drop_drop,
        ← List.append_assoc]
    refine ⟨by rw [hpm]; exact okr,
      by rw [hpm]; exact traceExt_trans (traceExt_processOne b skip m s) ter,
      d1 + d2, hlines, ?_, ?_, ?_, ?_⟩
    · have hL1 : (processOne b skip m s).2.prog.lines.length =
          (s.prog.lines ++ contribLines skip [m]).length - d1 := by
        rw [h1l, List.length_drop]
      rw [hcl]
      simp only [List.length_append] at h1b h2b hL1 ⊢
      omega
    · rw [hpm, h2t, h1t]
      omega
    · rw [hpm, h2f, h1f, hct, List.append_assoc]
    · exact fun h => by rw [hpm]; exact h2k (h1k h)

theorem jsCatch_ok (r : Except Unit Unit) : jsCatch r = Except.ok () := by
  cases r with
  | ok v => cases v; rfl
  | error e => rfl

theorem queueRunFrom_results (b : SenderBehavior) (skip : List String) :
    ∀ (batches : List (List ClaudeMessage)) (i : Nat) (s : Sys),
      (queueRunFrom b skip i batches s).2 = batches.map (fun _ => Except.ok ()) := by
  intro batches
  induction batches with
  | nil => intro i s; rfl
  | cons batch rest ih =>
    intro i s
    simp only [queueRunFrom, List.map_cons]
    rw [jsCatch_ok]
    exact congrArg (List.cons (Except.ok ())) (ih (i + 1) _)

theorem queueRunFrom_trace (b : SenderBehavior) (skip : List String) :
    ∀ (batches : List (List ClaudeMessage)) (i : Nat) (s : Sys),
      ∃ segs : List (List TraceEv),
        segs.length = batches.length ∧
        (∀ seg ∈ segs, ∀ ev ∈ seg, isCallEv ev = true) ∧
        (queueRunFrom b skip i batches s).1.trace = s.trace ++ batchSegTrace i segs := by
  intro batches
  induction batches with
  | nil => intro i s; exact ⟨[], rfl, by simp, by simp [queueRunFrom, batchSegTrace]⟩
  | cons batch rest ih =>
    intro i s
    obtain ⟨Δ, hΔ, hc⟩ := traceExt_processMessages b skip batch
      { s with trace := s.trace ++ [TraceEv.batchStart i] }
    obtain ⟨segs, hlen, hcs, htr⟩ := ih (i + 1)
      { (processMessages b skip batch
            { s with trace := s.trace ++ [TraceEv.batchStart i] }).2 with
        trace := (processMessages b skip batch
            { s with trace := s.trace ++ [TraceEv.batchStart i] }).2.trace ++
          [TraceEv.batchEnd i] }
    refine ⟨Δ :: segs, by simp [hlen], ?_, ?_⟩
    · intro seg hseg
      rcases List.mem_cons.1 hseg with h | h
      · subst h; exact hc
      · exact hcs seg h
    · simp only [queueRunFrom]
      rw [htr]
      simp only [batchSegTrace]
      rw [hΔ]
      simp [List.append_assoc]

/-- Composing two append-then-evict rounds: the contributions concatenate and
the eviction counts add, with the combined bound preserved. -/
theorem dropSpec_comp {l0 c1 c2 r1 r2 : List String} {d1 d2 : Nat}
    (h1l : r1 = (l0 ++ c1).drop d1)
    (h1b : d1 + min 1 (l0 ++ c1).length ≤ (l0 ++ c1).length)
    (h2l : r2 = (r1 ++ c2).drop d2)
    (h2b : d2 + min 1 (r1 ++ c2).length ≤ (r1 ++ c2).length) :
    r2 = (l0 ++ (c1 ++ c2)).drop (d1 + d2) ∧
    d1 + d2 + min 1 (l0 ++ (c1 ++ c2)).length ≤ (l0 ++ (c1 ++ c2)).length := by
  have hd1le : d1 ≤ (l0 ++ c1).length := by omega
  constructor
  · rw [h2l, h1l, ← List.drop_append_of_le_length hd1le, List.drop_drop,
      ← List.append_assoc]
  · have hL1 : r1.length = (l0 ++ c1).length - d1 := by rw [h1l, List.length_drop]
    simp only [List.length_append] at h1b h2b hL1 ⊢
    omega

theorem contribLines_append (skip : List String) (l1 l2 : List ClaudeMessage) :
    contribLines skip (l1 ++ l2) = contribLines skip l1 ++ contribLines skip l2 :=
  List.filterMap_append l1 l2 _

theorem contribTexts_append (skip : List String) (l1 l2 : List ClaudeMessage) :
    contribTexts skip (l1 ++ l2) = contribTexts skip l1 ++ contribTexts skip l2 :=
  List.filterMap_append l1 l2 _

theorem queueRunFrom_prog (b : SenderBehavior) (skip : List String) (hb : SendsOk b) :
    ∀ (batches : List (List ClaudeMessage)) (i : Nat) (s : Sys),
      ∃ d,
        (queueRunFrom b skip i batches s).1.prog.lines =
          (s.prog.lines ++ contribLines skip batches.flatten).drop d ∧
        d + min 1 (s.prog.lines ++ contribLines skip batches.flatten).length ≤
          (s.prog.lines ++ contribLines skip batches.flatten).length ∧
        (queueRunFrom b skip i batches s).1.prog.trimmedCount = s.prog.trimmedCount + d ∧
        (queueRunFrom b skip i batches s).1.prog.fullTextMessages =
          s.prog.fullTextMessages ++ contribTexts skip batches.flatten ∧
        (lenOk s.prog → lenOk (queueRunFrom b skip i batches s).1.prog) := by
  intro batches
  induction batches with
  | nil =>
    intro i s
    refine ⟨0, ?_, ?_, rfl, ?_, fun h => h⟩
    · simp [queueRunFrom, contribLines]
    · simp
    · simp [queueRunFrom, contribTexts]
  | cons batch rest ih =>
    intro i s
    obtain ⟨-, -, d1, h1l, h1b, h1t, h1f, h1k⟩ := processMessages_spec b skip hb batch
      { s with trace := s.trace ++ [TraceEv.batchStart i] }
    obtain ⟨d2, h2l, h2b, h2t, h2f, h2k⟩ := ih (i + 1)
      { (processMessages b skip batch
            { s with trace := s.trace ++ [TraceEv.batchStart i] }).2 with
        trace := (processMessages b skip batch
            { s with trace := s.trace ++ [TraceEv.batchStart i] }).2.trace ++
          [TraceEv.batchEnd i] }
    obtain ⟨hcomp, hbnd⟩ := dropSpec_comp h1l h1b h2l h2b
    refine ⟨d1 + d2, ?_, ?_, ?_, ?_, ?_⟩
    · show (queueRunFrom b skip (i + 1) rest _).1.prog.lines = _
      rw [hcomp, List.flatten_cons, contribLines_append]
    · rw [List.flatten_cons, contribLines_append]
      exact hbnd
    · show (queueRunFrom b skip (i + 1) rest _).1.prog.trimmedCount = _
      dsimp only at h2t h1t ⊢
      rw [h2t, h1t]
      omega
    · show (queueRunFrom b skip (i + 1) rest _).1.prog.fullTextMessages = _
      rw [h2f, h1f, List.flatten_cons, contribTexts_append, List.append_assoc]
    · intro h
      show lenOk (queueRunFrom b skip (i + 1) rest _).1.prog
      exact h2k (h1k h)

/-- C7: every non-empty (after trimming) `text` message body processed by
`sendClaudeMessages` is appended to `fullTextMessages` — the accumulated list
is exactly the old one plus each batch's bodies in order, computed without
consulting the classifier (`messageToSummaryLine`), so every such body is
available for the attachment built at finalization. -/
theorem claim_C7_fullText_side_channel (b : SenderBehavior) (skip : List String)
    (batches : List (List ClaudeMessage)) (s : Sys) (hb : SendsOk b) :
    (sendClaudeMessagesQueued b skip batches s).1.prog.fullTextMessages =
      s.prog.fullTextMessages ++ contribTexts skip batches.flatten ∧
    ∀ batch ∈ batches, ∀ m ∈ batch, m.type = "text" → trimStr m.content ≠ "" →
      droppedBySkipFilter skip m = false →
      trimStr m.content ∈
        (sendClaudeMessagesQueued b skip batches s).1.prog.fullTextMessages := by
  simp only [sendClaudeMessagesQueued]
  obtain ⟨d, -, -, -, hf, -⟩ := queueRunFrom_prog b skip hb batches 0 s
  refine ⟨hf, ?_⟩
  intro batch hbatch m hm htype hne hdrop
  rw [hf]
  apply List.mem_append_right
  simp only [contribTexts]
  exact List.mem_filterMap.2
    ⟨m, List.mem_flatten.2 ⟨batch, hbatch, hm⟩, by simp [hdrop, htype, hne]⟩

/-- C7 witness: a concrete queue run with one text message. -/
theorem claim_C7_fullText_side_channel_witness :
    SendsOk bOk ∧
    ((sendClaudeMessagesQueued bOk [] [[msgHello]] sys0).1.prog.fullTextMessages =
      sys0.prog.fullTextMessages ++ contribTexts [] ([[msgHello]] : List (List ClaudeMessage)).flatten ∧
    ∀ batch ∈ [[msgHello]], ∀ m ∈ batch, m.type = "text" → trimStr m.content ≠ "" →
      droppedBySkipFilter [] m = false →
      trimStr m.content ∈
        (sendClaudeMessagesQueued bOk [] [[msgHello]] sys0).1.prog.fullTextMessages) :=
  ⟨fun _ => ⟨some "msg-1", rfl⟩,
   claim_C7_fullText_side_channel bOk [] [[msgHello]] sys0 (fun _ => ⟨some "msg-1", rfl⟩)⟩

/-- C4: two batches submitted to `sendClaudeMessages` (the second before the
first settles) are processed strictly one after the other: each settles
fulfilled, every call event of batch 1 lies between the batch-1 markers and
before every call event of batch 2, and the final line sequence is the
concatenation of batch 1's then batch 2's contributions (less `d` evictions
from the oldest end; exactly the concatenation when nothing was evicted). -/
theorem claim_C4_overlapping_calls_serialized (b : SenderBehavior) (skip : List String)
    (batch1 batch2 : List ClaudeMessage) (s : Sys) (hb : SendsOk b) :
    (sendClaudeMessagesQueued b skip [batch1, batch2] s).2 =
      [Except.ok (), Except.ok ()] ∧
    (∃ Δ1 Δ2, (∀ ev ∈ Δ1, isCallEv ev = true) ∧ (∀ ev ∈ Δ2, isCallEv ev = true) ∧
      (sendClaudeMessagesQueued b skip [batch1, batch2] s).1.trace =
        s.trace ++ [TraceEv.batchStart 0] ++ Δ1 ++ [TraceEv.batchEnd 0] ++
          [TraceEv.batchStart 1] ++ Δ2 ++ [TraceEv.batchEnd 1]) ∧
    (∃ d,
      (sendClaudeMessagesQueued b skip [batch1, batch2] s).1.prog.lines =
        (s.prog.lines ++ contribLines skip batch1 ++ contribLines skip batch2).drop d ∧
      (sendClaudeMessagesQueued b skip [batch1, batch2] s).1.prog.trimmedCount =
        s.prog.trimmedCount + d) ∧
    ((sendClaudeMessagesQueued b skip [batch1, batch2] s).1.prog.trimmedCount =
        s.prog.trimmedCount →
      (sendClaudeMessagesQueued b skip [batch1, batch2] s).1.prog.lines =
        s.prog.lines ++ contribLines skip batch1 ++ contribLines skip batch2) := by
  simp only [sendClaudeMessagesQueued]
  have hfl : contribLines skip ([batch1, batch2] : List (List ClaudeMessage)).flatten =
      contribLines skip batch1 ++ contribLines skip batch2 := by
    show contribLines skip (batch1 ++ (batch2 ++ [])) = _
    rw [List.append_nil, contribLines_append]
  obtain ⟨d, hl, hbd, ht, -, -⟩ := queueRunFrom_prog b skip hb [batch1, batch2] 0 s
  refine ⟨by simpa using queueRunFrom_results b skip [batch1, batch2] 0 s, ?_, ?_, ?_⟩
  · obtain ⟨segs, hlen, hcall, htr⟩ := queueRunFrom_trace b skip [batch1, batch2] 0 s
    rcases segs with _ | ⟨Δ1, segs⟩
    · simp at hlen
    rcases segs with _ | ⟨Δ2, segs⟩
    · simp at hlen
    rcases segs with _ | ⟨Δ3, segs⟩
    swap
    · simp only [List.length_cons, List.length_nil] at hlen
      omega
    refine ⟨Δ1, Δ2, fun ev h => hcall Δ1 (by simp) ev h,
      fun ev h => hcall Δ2 (by simp) ev h, ?_⟩
    rw [htr]
    simp [batchSegTrace, List.append_assoc]
  · refine ⟨d, ?_, ht⟩
    rw [hl, hfl, List.append_assoc]
  · intro h0
    have hd0 : d = 0 := by rw [ht] at h0; omega
    rw [hd0] at hl
    rw [hl, hfl, List.drop_zero, List.append_assoc]

/-- C4 witness: two concrete overlapping one-message batches. -/
theorem claim_C4_overlapping_calls_serialized_witness :
    SendsOk bOk ∧
    ((sendClaudeMessagesQueued bOk [] [[msgHello], [msgWorld]] sys0).2 =
      [Except.ok (), Except.ok ()] ∧
    (∃ Δ1 Δ2, (∀ ev ∈ Δ1, isCallEv ev = true) ∧ (∀ ev ∈ Δ2, isCallEv ev = true) ∧
      (sendClaudeMessagesQueued bOk [] [[msgHello], [msgWorld]] sys0).1.trace =
        sys0.trace ++ [TraceEv.batchStart 0] ++ Δ1 ++ [TraceEv.batchEnd 0] ++
          [TraceEv.batchStart 1] ++ Δ2 ++ [TraceEv.batchEnd 1]) ∧
    (∃ d,
      (sendClaudeMessagesQueued bOk [] [[msgHello], [msgWorld]] sys0).1.prog.lines =
        (sys0.prog.lines ++ contribLines [] [msgHello] ++ contribLines [] [msgWorld]).drop d ∧
      (sendClaudeMessagesQueued bOk [] [[msgHello], [msgWorld]] sys0).1.prog.trimmedCount =
        sys0.prog.trimmedCount + d) ∧
    ((sendClaudeMessagesQueued bOk [] [[msgHello], [msgWorld]] sys0).1.prog.trimmedCount =
        sys0.prog.trimmedCount →
      (sendClaudeMessagesQueued bOk [] [[msgHello], [msgWorld]] sys0).1.prog.lines =
        sys0.prog.lines ++ contribLines [] [msgHello] ++ contribLines [] [msgWorld])) :=
  ⟨fun _ => ⟨some "msg-1", rfl⟩,
   claim_C4_overlapping_calls_serialized bOk [] [msgHello] [msgWorld] sys0
     (fun _ => ⟨some "msg-1", rfl⟩)⟩

/-- C10: the settlement `sendClaudeMessages` hands back is always a
fulfillment, whatever the platform does — every batch's entry in the
settlement list is `ok`, errors being swallowed by the `.catch` at the queue
boundary — and the queue still runs every subsequent batch (each batch's
start/end markers appear, in order). -/
theorem claim_C10_promise_never_rejects (b : SenderBehavior) (skip : List String)
    (batches : List (List ClaudeMessage)) (s : Sys) :
    (sendClaudeMessagesQueued b skip batches s).2 =
      batches.map (fun _ => Except.ok ()) ∧
    ∃ segs : List (List TraceEv), segs.length = batches.length ∧
      (∀ seg ∈ segs, ∀ ev ∈ seg, isCallEv ev = true) ∧
      (sendClaudeMessagesQueued b skip batches s).1.trace =
        s.trace ++ batchSegTrace 0 segs := by
  simp only [sendClaudeMessagesQueued]
  exact ⟨queueRunFrom_results b skip batches 0 s, queueRunFrom_trace b skip batches 0 s⟩

theorem bigDesc_length : bigDesc.length = 3900 := by
  show (List.replicate 3900 'a').length = 3900
  rw [List.length_replicate]

theorem bigDesc_ne : bigDesc ≠ "" := by
  intro h
  have h2 := congrArg String.length h
  rw [bigDesc_length] at h2
  simp at h2

theorem summaryLine_bigTask :
    messageToSummaryLine bigTaskMsg = some ("**Task** — " ++ bigDesc) := by
  simp [messageToSummaryLine, bigTaskMsg, jsOr, bigDesc_ne]

/-- C2 counterexample: a single non-system `Task` message whose description is
3900 characters long makes the rendered progress description 3911 characters —
`messageToSummaryLine` puts no cap on `Task` (or `Glob`/`Grep`/`Edit`/`Write`/
`Read`) lines, and `trimLines` never trims below one line, so the rendered
description exceeds the 3800-character budget. -/
theorem claim_C2_counterexample :
    (∀ m ∈ [bigTaskMsg], m.type ≠ "system") ∧
    MAX_DESCRIPTION_LENGTH <
      (buildProgressDescription
        (processMessages bOk [] [bigTaskMsg] sys0).2.prog).length := by
  constructor
  · intro m hm
    simp only [List.mem_singleton] at hm
    subst hm
    decide
  · have hdrop : droppedBySkipFilter [] bigTaskMsg = false := by decide
    obtain ⟨-, -, d, hl, hb, ht, -, -⟩ :=
      processMessages_spec bOk [] (fun _ => ⟨some "msg-1", rfl⟩) [bigTaskMsg] sys0
    have hcl : contribLines [] [bigTaskMsg] = ["**Task** — " ++ bigDesc] := by
      simp [contribLines, List.filterMap_cons, hdrop, summaryLine_bigTask]
    rw [hcl] at hl hb
    have hs0 : sys0.prog.lines = [] := rfl
    rw [hs0] at hl hb
    simp only [List.nil_append, List.length_singleton] at hl hb
    have hd0 : d = 0 := by omega
    rw [hd0, List.drop_zero] at hl
    have htrim : (processMessages bOk [] [bigTaskMsg] sys0).2.prog.trimmedCount = 0 := by
      rw [ht, hd0]
      rfl
    have hdesc : buildProgressDescription
        (processMessages bOk [] [bigTaskMsg] sys0).2.prog = "**Task** — " ++ bigDesc := by
      unfold buildProgressDescription
      rw [htrim, hl]
      simp [strIntercalate]
    rw [hdesc, String.length_append, bigDesc_length]
    decide

/-- C2 (amended): for every sequence of messages processed within one run from
a state satisfying the budget invariant, the number of rendered lines equals
lines appended minus lines evicted, and the rendered description stays within
the 3800-character budget *unless only a single line remains* — a single line
is never evicted, and a single over-long line (e.g. an uncapped `Task`
description) can exceed the budget on its own. -/
theorem claim_C2_description_budget_amended (b : SenderBehavior) (skip : List String)
    (msgs : List ClaudeMessage) (s : Sys) (hb : SendsOk b)
    (hns : ∀ m ∈ msgs, m.type ≠ "system") (h0 : lenOk s.prog) :
    ((processMessages b skip msgs s).2.prog.lines.length ≤ 1 ∨
      (buildProgressDescription (processMessages b skip msgs s).2.prog).length ≤
        MAX_DESCRIPTION_LENGTH) ∧
    (processMessages b skip msgs s).2.prog.lines.length
      + ((processMessages b skip msgs s).2.prog.trimmedCount - s.prog.trimmedCount)
      = s.prog.lines.length + (contribLines skip msgs).length := by
  obtain ⟨-, -, d, hl, hbd, ht, -, hk⟩ := processMessages_spec b skip hb msgs s
  refine ⟨hk h0, ?_⟩
  rw [hl, ht, List.length_drop]
  simp only [List.length_append] at hbd ⊢
  omega

/-- C2 amended witness: one concrete non-system message from the fresh state. -/
theorem claim_C2_description_budget_amended_witness :
    SendsOk bOk ∧ (∀ m ∈ [msgHello], m.type ≠ "system") ∧ lenOk sys0.prog ∧
    (((processMessages bOk [] [msgHello] sys0).2.prog.lines.length ≤ 1 ∨
      (buildProgressDescription (processMessages bOk [] [msgHello] sys0).2.prog).length ≤
        MAX_DESCRIPTION_LENGTH) ∧
    (processMessages bOk [] [msgHello] sys0).2.prog.lines.length
      + ((processMessages bOk [] [msgHello] sys0).2.prog.trimmedCount
          - sys0.prog.trimmedCount)
      = sys0.prog.lines.length + (contribLines [] [msgHello]).length) :=
  ⟨fun _ => ⟨some "msg-1", rfl⟩, by decide, Or.inl (by decide),
   claim_C2_description_budget_amended bOk [] [msgHello] sys0
     (fun _ => ⟨some "msg-1", rfl⟩) (by decide) (Or.inl (by decide))⟩

/-! ## Claim C1: the terminal transition -/

theorem completeInflight_of_none (s : Sys) (h : s.inflight = none) :
    completeInflight s = s := by
  unfold completeInflight
  rw [h]

theorem inflightEndEvents_of_none (s : Sys) (h : s.inflight = none) :
    inflightEndEvents s = [] := by
  unfold inflightEndEvents
  rw [h]

theorem flushEdit_live (b : SenderBehavior) (s : Sys) (mid : String)
    (hmid : s.prog.messageId = some mid) (hmid' : mid ≠ "")
    (hfin : s.prog.finished = false) :
    flushEdit b s = (doEdit b mid (runningContent s.prog) s).2 := by
  unfold flushEdit
  rw [hmid, hfin]
  simp [optTruthy, hmid']

theorem doEdit_fst (b : SenderBehavior) (mid : String) (content : MessageContent)
    (s : Sys) (hb : ∀ n, b.editOk n = true) :
    (doEdit b mid content s).1 = Except.ok () := by
  simp [doEdit, hb]

theorem editWithSendFallback_editOk (b : SenderBehavior) (mid : String)
    (content : MessageContent) (s : Sys) (hb : ∀ n, b.editOk n = true) :
    editWithSendFallback b mid content s = (Except.ok (), (doEdit b mid content s).2) := by
  simp only [editWithSendFallback]
  rw [doEdit_fst b mid content s hb]

theorem completeInflight_update_prog (s : Sys) (p : ProgressState) (h : s.inflight = none) :
    completeInflight { s with prog := p } = { s with prog := p } :=
  completeInflight_of_none _ h

theorem sendSystemMessage_terminal (b : SenderBehavior) (msg : ClaudeMessage) (s : Sys)
    (mid : String) (hmid : s.prog.messageId = some mid) (hmid' : mid ≠ "")
    (hinf : s.inflight = none)
    (hsub : msg.subtype = some "completion" ∨ msg.subtype = some "failure") :
    sendSystemMessage b msg s =
      editWithSendFallback b mid (buildSystemMessageContent s.prog msg)
        { s with prog :=
          { s.prog with editTimer := none, pendingEdit := false, finished := true } } := by
  have hbool : (decide (msg.subtype = some "completion") ||
      decide (msg.subtype = some "failure")) = true := by
    rcases hsub with h | h <;> simp [h]
  unfold sendSystemMessage
  dsimp only
  rw [completeInflight_update_prog s _ hinf]
  simp [hbool, hmid, optTruthy, hmid']

/-- An event loop at rest: with the debounce timer cleared and no edit in
flight, neither a timer firing nor an in-flight settlement changes anything. -/
theorem applyEvents_quiescent (s : Sys) (h1 : s.prog.editTimer = none)
    (h2 : s.inflight = none) : ∀ evs : List LoopEvent, applyEvents evs s = s := by
  intro evs
  induction evs with
  | nil => rfl
  | cons ev rest ih =>
    have hstep : stepEvent s ev = s := by
      cases ev with
      | timerFires id => simp [stepEvent, h1]
      | inflightSettles => simp [stepEvent, completeInflight, h2]
    rw [applyEvents, hstep, ih]

theorem buildSystemMessageContent_title (p : ProgressState) (msg : ClaudeMessage)
    (hsub : msg.subtype = some "completion" ∨ msg.subtype = some "failure") :
    ((buildSystemMessageContent p msg).embeds.map (fun e => e.title)) =
      [if msg.subtype = some "completion" then "Claude Code Complete"
       else "Claude Code Failed"] := by
  rcases hsub with h | h
  · simp [buildSystemMessageContent, h]
    split <;> rfl
  · simp [buildSystemMessageContent, h]
    split <;> split <;> rfl

theorem terminalContent_ne_running (p : ProgressState) (msg : ClaudeMessage)
    (hsub : msg.subtype = some "completion" ∨ msg.subtype = some "failure") :
    buildSystemMessageContent p msg ≠ runningContent p := by
  intro he
  have h2 := congrArg (fun mc => mc.embeds.map (fun e => e.title)) he
  dsimp only at h2
  rw [buildSystemMessageContent_title p msg hsub] at h2
  rcases hsub with h | h <;> rw [h] at h2 <;>
    simp [runningContent] at h2

/-- C1: a terminal (`completion`/`failure`) system message arriving while the
run is live with a debounce timer pending clears the timer, first awaits/
settles any in-flight edit (its `callEnd` precedes everything new), flushes
the pending progress edit, and then issues as the very last call exactly one
edit carrying the pre-terminal lines merged with the terminal fields
(`buildSystemMessageContent`); afterwards the timer handle is cleared, the
run is finished, nothing is in flight, and no later timer firing or
settlement event changes the state — the terminal write can never be
overwritten by a late debounced edit. -/
theorem claim_C1_terminal_transition (b : SenderBehavior) (skip : List String)
    (msg : ClaudeMessage) (s : Sys) (mid : String) (tid : Nat)
    (hb : ∀ n, b.editOk n = true)
    (hmid : s.prog.messageId = some mid) (hmid' : mid ≠ "")
    (htimer : s.prog.editTimer = some tid)
    (hfin : s.prog.finished = false)
    (htype : msg.type = "system")
    (hsub : msg.subtype = some "completion" ∨ msg.subtype = some "failure") :
    (processMessages b skip [msg] s).1 = Except.ok () ∧
    (processMessages b skip [msg] s).2.trace =
      s.trace ++ (inflightEndEvents s ++
        [TraceEv.callStart (PlatformCall.edit mid (runningContent { s.prog with editTimer := none })),
         TraceEv.callEnd (PlatformCall.edit mid (runningContent { s.prog with editTimer := none })),
         TraceEv.callStart (PlatformCall.edit mid (buildSystemMessageContent { s.prog with editTimer := none } msg)),
         TraceEv.callEnd (PlatformCall.edit mid (buildSystemMessageContent { s.prog with editTimer := none } msg))]) ∧
    (((processMessages b skip [msg] s).2.trace.drop s.trace.length).count
      (TraceEv.callStart (PlatformCall.edit mid (buildSystemMessageContent { s.prog with editTimer := none } msg)))) = 1 ∧
    (processMessages b skip [msg] s).2.prog =
      { s.prog with editTimer := none, pendingEdit := false, finished := true } ∧
    (processMessages b skip [msg] s).2.inflight = none ∧
    (∀ evs : List LoopEvent,
      applyEvents evs (processMessages b skip [msg] s).2 = (processMessages b skip [msg] s).2) := by
  have hdropm : droppedBySkipFilter skip msg = false := by
    unfold droppedBySkipFilter isInternalSystem
    rcases hsub with h | h <;> simp [htype, h]
  have hpo : processOne b skip msg s = handleSystem b msg s := by
    simp [processOne, hdropm, htype]
  have hhs : handleSystem b msg s =
      sendSystemMessage b msg (flushEdit b { s with prog := { s.prog with editTimer := none } }) := by
    simp only [handleSystem]
    simp [hmid, optTruthy, hmid']
  have hfl : flushEdit b { s with prog := { s.prog with editTimer := none } } =
      (doEdit b mid (runningContent { s.prog with editTimer := none }) { s with prog := { s.prog with editTimer := none } }).2 :=
    flushEdit_live b { s with prog := { s.prog with editTimer := none } } mid hmid hmid' hfin
  have hs2prog : ((doEdit b mid (runningContent { s.prog with editTimer := none }) { s with prog := { s.prog with editTimer := none } }).2).prog = { s.prog with editTimer := none } :=
    doEdit_prog ..
  have hs2inf : ((doEdit b mid (runningContent { s.prog with editTimer := none }) { s with prog := { s.prog with editTimer := none } }).2).inflight = none :=
    doEdit_inflight ..
  have hs2mid : ((doEdit b mid (runningContent { s.prog with editTimer := none }) { s with prog := { s.prog with editTimer := none } }).2).prog.messageId = some mid := by
    rw [hs2prog]
    exact hmid
  have hterm : sendSystemMessage b msg (doEdit b mid (runningContent { s.prog with editTimer := none }) { s with prog := { s.prog with editTimer := none } }).2 =
      editWithSendFallback b mid (buildSystemMessageContent ((doEdit b mid (runningContent { s.prog with editTimer := none }) { s with prog := { s.prog with editTimer := none } }).2).prog msg)
        { (doEdit b mid (runningContent { s.prog with editTimer := none }) { s with prog := { s.prog with editTimer := none } }).2 with prog := { (doEdit b mid (runningContent { s.prog with editTimer := none }) { s with prog := { s.prog with editTimer := none } }).2.prog with editTimer := none, pendingEdit := false, finished := true } } :=
    sendSystemMessage_terminal b msg (doEdit b mid (runningContent { s.prog with editTimer := none }) { s with prog := { s.prog with editTimer := none } }).2 mid hs2mid hmid' hs2inf hsub
  have hbc : buildSystemMessageContent ((doEdit b mid (runningContent { s.prog with editTimer := none }) { s with prog := { s.prog with editTimer := none } }).2).prog msg = buildSystemMessageContent { s.prog with editTimer := none } msg := by
    rw [hs2prog]
  have hew : editWithSendFallback b mid (buildSystemMessageContent { s.prog with editTimer := none } msg) { (doEdit b mid (runningContent { s.prog with editTimer := none }) { s with prog := { s.prog with editTimer := none } }).2 with prog := { (doEdit b mid (runningContent { s.prog with editTimer := none }) { s with prog := { s.prog with editTimer := none } }).2.prog with editTimer := none, pendingEdit := false, finished := true } } =
      (Except.ok (), (doEdit b mid (buildSystemMessageContent { s.prog with editTimer := none } msg) { (doEdit b mid (runningContent { s.prog with editTimer := none }) { s with prog := { s.prog with editTimer := none } }).2 with prog := { (doEdit b mid (runningContent { s.prog with editTimer := none }) { s with prog := { s.prog with editTimer := none } }).2.prog with editTimer := none, pendingEdit := false, finished := true } }).2) :=
    editWithSendFallback_editOk b mid (buildSystemMessageContent { s.prog with editTimer := none } msg) { (doEdit b mid (runningContent { s.prog with editTimer := none }) { s with prog := { s.prog with editTimer := none } }).2 with prog := { (doEdit b mid (runningContent { s.prog with editTimer := none }) { s with prog := { s.prog with editTimer := none } }).2.prog with editTimer := none, pendingEdit := false, finished := true } } hb
  have hall : handleSystem b msg s = (Except.ok (), (doEdit b mid (buildSystemMessageContent { s.prog with editTimer := none } msg) { (doEdit b mid (runningContent { s.prog with editTimer := none }) { s with prog := { s.prog with editTimer := none } }).2 with prog := { (doEdit b mid (runningContent { s.prog with editTimer := none }) { s with prog := { s.prog with editTimer := none } }).2.prog with editTimer := none, pendingEdit := false, finished := true } }).2) := by
    rw [hhs, hfl, hterm, hbc, hew]
  have hpm : processMessages b skip [msg] s = (Except.ok (), (doEdit b mid (buildSystemMessageContent { s.prog with editTimer := none } msg) { (doEdit b mid (runningContent { s.prog with editTimer := none }) { s with prog := { s.prog with editTimer := none } }).2 with prog := { (doEdit b mid (runningContent { s.prog with editTimer := none }) { s with prog := { s.prog with editTimer := none } }).2.prog with editTimer := none, pendingEdit := false, finished := true } }).2) := by
    simp only [processMessages, hpo, hall]
  have hsmutinf : ({ (doEdit b mid (runningContent { s.prog with editTimer := none }) { s with prog := { s.prog with editTimer := none } }).2 with prog := { (doEdit b mid (runningContent { s.prog with editTimer := none }) { s with prog := { s.prog with editTimer := none } }).2.prog with editTimer := none, pendingEdit := false, finished := true } } : Sys).inflight = none := hs2inf
  have hfprog : ((doEdit b mid (buildSystemMessageContent { s.prog with editTimer := none } msg) { (doEdit b mid (runningContent { s.prog with editTimer := none }) { s with prog := { s.prog with editTimer := none } }).2 with prog := { (doEdit b mid (runningContent { s.prog with editTimer := none }) { s with prog := { s.prog with editTimer := none } }).2.prog with editTimer := none, pendingEdit := false, finished := true } }).2).prog =
      { s.prog with editTimer := none, pendingEdit := false, finished := true } := by
    rw [doEdit_prog ..]
    dsimp only
    rw [hs2prog]
  have hfinf : ((doEdit b mid (buildSystemMessageContent { s.prog with editTimer := none } msg) { (doEdit b mid (runningContent { s.prog with editTimer := none }) { s with prog := { s.prog with editTimer := none } }).2 with prog := { (doEdit b mid (runningContent { s.prog with editTimer := none }) { s with prog := { s.prog with editTimer := none } }).2.prog with editTimer := none, pendingEdit := false, finished := true } }).2).inflight = none :=
    doEdit_inflight ..
  have hftr : ((doEdit b mid (buildSystemMessageContent { s.prog with editTimer := none } msg) { (doEdit b mid (runningContent { s.prog with editTimer := none }) { s with prog := { s.prog with editTimer := none } }).2 with prog := { (doEdit b mid (runningContent { s.prog with editTimer := none }) { s with prog := { s.prog with editTimer := none } }).2.prog with editTimer := none, pendingEdit := false, finished := true } }).2).trace =
      s.trace ++ (inflightEndEvents s ++
        [TraceEv.callStart (PlatformCall.edit mid (runningContent { s.prog with editTimer := none })),
         TraceEv.callEnd (PlatformCall.edit mid (runningContent { s.prog with editTimer := none })),
         TraceEv.callStart (PlatformCall.edit mid (buildSystemMessageContent { s.prog with editTimer := none } msg)),
         TraceEv.callEnd (PlatformCall.edit mid (buildSystemMessageContent { s.prog with editTimer := none } msg))]) := by
    rw [doEdit_trace]
    rw [inflightEndEvents_of_none _ hsmutinf]
    have hsm : ({ (doEdit b mid (runningContent { s.prog with editTimer := none }) { s with prog := { s.prog with editTimer := none } }).2 with prog := { (doEdit b mid (runningContent { s.prog with editTimer := none }) { s with prog := { s.prog with editTimer := none } }).2.prog with editTimer := none, pendingEdit := false, finished := true } } : Sys).trace = ((doEdit b mid (runningContent { s.prog with editTimer := none }) { s with prog := { s.prog with editTimer := none } }).2).trace := rfl
    rw [hsm, doEdit_trace]
    have h1 : ({ s with prog := { s.prog with editTimer := none } } : Sys).trace = s.trace := rfl
    have h2 : inflightEndEvents ({ s with prog := { s.prog with editTimer := none } } : Sys) = inflightEndEvents s := rfl
    rw [h1, h2]
    simp [List.append_assoc]
  have hcontent : (buildSystemMessageContent { s.prog with editTimer := none } msg) ≠ (runningContent { s.prog with editTimer := none }) :=
    terminalContent_ne_running { s.prog with editTimer := none } msg hsub
  refine ⟨by rw [hpm], by rw [hpm]; exact hftr, ?_, by rw [hpm]; exact hfprog,
    by rw [hpm]; exact hfinf, ?_⟩
  · rw [hpm]
    show ((((doEdit b mid (buildSystemMessageContent { s.prog with editTimer := none } msg) { (doEdit b mid (runningContent { s.prog with editTimer := none }) { s with prog := { s.prog with editTimer := none } }).2 with prog := { (doEdit b mid (runningContent { s.prog with editTimer := none }) { s with prog := { s.prog with editTimer := none } }).2.prog with editTimer := none, pendingEdit := false, finished := true } }).2).trace.drop s.trace.length).count (TraceEv.callStart (PlatformCall.edit mid (buildSystemMessageContent { s.prog with editTimer := none } msg)))) = 1
    rw [hftr, List.drop_left]
    rw [List.count_append]
    have hcIE : (inflightEndEvents s).count (TraceEv.callStart (PlatformCall.edit mid (buildSystemMessageContent { s.prog with editTimer := none } msg))) = 0 := by
      cases h : s.inflight <;> simp [inflightEndEvents, h]
    rw [hcIE]
    simp [List.count_cons, hcontent]
  · intro evs
    rw [hpm]
    exact applyEvents_quiescent _ (by rw [hfprog]) hfinf evs

/-- C1 witness: the terminal transition at a concrete live state with a
pending timer and an in-flight edit. -/
theorem claim_C1_terminal_transition_witness :
    (∀ n, bOk.editOk n = true) ∧ termSys.prog.messageId = some "m" ∧
    termSys.prog.editTimer = some 0 ∧ termSys.prog.finished = false ∧
    ((processMessages bOk [] [termMsg] termSys).1 = Except.ok () ∧
    (processMessages bOk [] [termMsg] termSys).2.trace =
      termSys.trace ++ (inflightEndEvents termSys ++
        [TraceEv.callStart (PlatformCall.edit "m" (runningContent { termSys.prog with editTimer := none })),
         TraceEv.callEnd (PlatformCall.edit "m" (runningContent { termSys.prog with editTimer := none })),
         TraceEv.callStart (PlatformCall.edit "m" (buildSystemMessageContent { termSys.prog with editTimer := none } termMsg)),
         TraceEv.callEnd (PlatformCall.edit "m" (buildSystemMessageContent { termSys.prog with editTimer := none } termMsg))]) ∧
    (((processMessages bOk [] [termMsg] termSys).2.trace.drop termSys.trace.length).count
      (TraceEv.callStart (PlatformCall.edit "m" (buildSystemMessageContent { termSys.prog with editTimer := none } termMsg)))) = 1 ∧
    (processMessages bOk [] [termMsg] termSys).2.prog =
      { termSys.prog with editTimer := none, pendingEdit := false, finished := true } ∧
    (processMessages bOk [] [termMsg] termSys).2.inflight = none ∧
    (∀ evs : List LoopEvent,
      applyEvents evs (processMessages bOk [] [termMsg] termSys).2 = (processMessages bOk [] [termMsg] termSys).2)) :=
  ⟨fun _ => rfl, rfl, rfl, rfl,
   claim_C1_terminal_transition bOk [] termMsg termSys "m" 0
     (fun _ => rfl) rfl (by decide) rfl rfl rfl (Or.inl rfl)⟩

end ClaudeDiscord
